import Mathlib

/-!
# NAT load-balancer rules of `cns/iptables/iptables.go`

A shallow embedding of the Go package `iptables`:

* `EnableIPForwarding`, `AddPreroutingFilters` and `DeletePreroutingFilters` are
  state-passing functions over a `World` that records, oldest first, every
  command handed to `sh -c` and every message handed to the logger;
* the outcome of `executeShellCommand` is an arbitrary function (`Shell`) of the
  commands run so far and of the command being run;
* `float64` values are kept exactly, as `mant * 2 ^ exp`, and the two float64
  operations of the source (conversion from `int`, division) round to nearest,
  ties to even, with a 53 bit significand;
* `fmt.Sprintf` is interpreted over the literal format strings of the source,
  for the verbs the source uses (`%s`, `%v` on strings, `%f` on float64).
-/

namespace iptables

/-! ## float64 -/

/-- A finite, non-negative float64, kept exactly: the value is `mant * 2 ^ exp`. Signs,
infinities and NaN never arise in the source: the only float64 values are
`float64(numIps-i)` with `numIps-i ≥ 1` and `1 / float64(numIps-i)`. -/
structure F64 where
  mant : Nat
  exp : Int
deriving DecidableEq, Repr

/-- The rational number a float64 stands for. -/
def F64.toRat (x : F64) : ℚ := (x.mant : ℚ) * (2 : ℚ) ^ x.exp

/-- Nearest integer to `num / den`, ties to the even neighbour. -/
def roundHalfEven (num den : Nat) : Nat :=
  let q := num / den
  let r := num % den
  if 2 * r < den then q
  else if den < 2 * r then q + 1
  else if q % 2 = 0 then q else q + 1

/-- Number of binary digits of `n` (`0` for `0`); the first argument bounds the
recursion and `bitLen n n` is the length for every `n`. -/
def bitLen : Nat → Nat → Nat
  | 0, _ => 0
  | fuel + 1, n => if n = 0 then 0 else bitLen fuel (n / 2) + 1

/-- The binary exponent of a positive `num / den`: the `e` with
`2 ^ e ≤ num / den < 2 ^ (e + 1)`. -/
def floorLog2 (num den : Nat) : Int :=
  let e0 : Int := (bitLen num num : Int) - (bitLen den den : Int)
  if den * 2 ^ e0.toNat ≤ num * 2 ^ (-e0).toNat then e0 else e0 - 1

/-- IEEE 754 binary64 rounding (round to nearest, ties to even) of the positive rational
`num / den`: the significand is scaled into `[2^52, 2^53)` and rounded to an integer.
Exponent range limits are left out: every value the source computes lies between
`2^-63` and `2^63`, since a Go `int` is at most `2^63 - 1`. -/
def roundToF64 (num den : Nat) : F64 :=
  if num = 0 ∨ den = 0 then ⟨0, 0⟩
  else
    let s : Int := 52 - floorLog2 num den
    ⟨roundHalfEven (num * 2 ^ s.toNat) (den * 2 ^ (-s).toNat), -s⟩

/-- Go conversion `float64(n)` of a non-negative `int`. -/
def float64 (n : Nat) : F64 := roundToF64 n 1

/-- Go float64 division `a / b`: the exact quotient, rounded. -/
def F64.div (a b : F64) : F64 :=
  roundToF64 (a.mant * 2 ^ a.exp.toNat * 2 ^ (-b.exp).toNat)
    (b.mant * 2 ^ b.exp.toNat * 2 ^ (-a.exp).toNat)

/-- The constant `1` as a float64. -/
def F64.one : F64 := ⟨1, 0⟩

/-! ## fmt.Sprintf -/

/-- Left-pads the six digits after the decimal point with zeros. -/
def pad6 (ds : List Char) : List Char := List.replicate (6 - ds.length) '0' ++ ds

/-- Go `%f` on a float64: the exact value rounded to six digits after the decimal point
(ties to even, as `strconv` does on the exact decimal expansion). -/
def fmtFloat (x : F64) : String :=
  let scaled := roundHalfEven (x.mant * 10 ^ 6 * 2 ^ x.exp.toNat) (2 ^ (-x.exp).toNat)
  String.mk (Nat.toDigits 10 (scaled / 10 ^ 6) ++ '.' :: pad6 (Nat.toDigits 10 (scaled % 10 ^ 6)))

/-- An operand of `fmt.Sprintf`. -/
inductive Arg where
  | str (s : String)
  | float (x : F64)

/-- Expands a format, character by character. `%s` and `%v` take a string operand, `%f` a
float64 operand; the source never pairs a verb with another operand kind, and any other
character is copied. -/
def sprintfAux : List Char → List Arg → List Char
  | [], _ => []
  | '%' :: 's' :: rest, Arg.str s :: args => s.data ++ sprintfAux rest args
  | '%' :: 'v' :: rest, Arg.str s :: args => s.data ++ sprintfAux rest args
  | '%' :: 'f' :: rest, Arg.float x :: args => (fmtFloat x).data ++ sprintfAux rest args
  | c :: rest, args => c :: sprintfAux rest args

/-- Go `fmt.Sprintf`. -/
def Sprintf (format : String) (args : List Arg) : String :=
  String.mk (sprintfAux format.data args)

/-! ## Configuration, world, shell -/

/-- Modelled from the spec: the declaration of `cns.LBConfiguration.DestinationConfig` is
not among the sources; the backend addresses are an ordered sequence and the port, printed
with `%s`, is text. -/
structure LBDestinationConfig where
  IPAddresses : List String
  Port : String

/-- Modelled from the spec: the declaration of `cns.LBConfiguration` is not among the
sources; the fields are those `AddPreroutingFilters` reads, all printed with `%s`. -/
structure LBConfiguration where
  SourceIP : String
  SourcePort : String
  DestinationConfig : LBDestinationConfig

/-- A non-nil Go `error`, identified by its diagnostic text; `none` is `nil`. -/
abbrev GoError := String

/-- What a call has done to the outside so far: the commands run through `sh -c` and the
messages given to the logger, oldest first. -/
structure World where
  issued : List String
  logged : List String

/-- The world at the start of a call. -/
def World.start : World := ⟨[], []⟩

/-- The host: what `sh -c command` answers (`cmd.Start` then `cmd.Wait`), given the
commands run before it. -/
abbrev Shell := List String → String → Option GoError

/-- Go `log.Printf` / `log.Debugf` with the message already formatted. -/
def logMessage (msg : String) (w : World) : World :=
  { w with logged := w.logged ++ [msg] }

/-- Source lines 55-63. -/
def executeShellCommand (sh : Shell) (command : String) (w : World) : World × Option GoError :=
  let w1 := logMessage (Sprintf "[iptables] %s" [Arg.str command]) w
  ({ w1 with issued := w1.issued ++ [command] }, sh w.issued command)

/-- Source lines 40-46. -/
def EnableIPForwarding (sh : Shell) (w : World) : World × Option GoError :=
  match executeShellCommand sh "sysctl net.ipv4.ip_forward=1" w with
  | (w1, some _) => executeShellCommand sh "echo '1' < /proc/sys/net/ipv4/ip_forward" w1
  | (w1, none) => (w1, none)

/-! ## Rule installation and removal -/

/-- The loop `for i := 0; i < numIps; i++ { body }`, entered at index `i` with
`remaining = numIps - i` iterations to go. The second component of what an iteration gives
is `some err` when it ends in `return err`, which ends the loop and the function. -/
def forLoop (body : Nat → World → World × Option GoError) :
    (remaining : Nat) → (i : Nat) → World → World × Option GoError
  | 0, _, w => (w, none)
  | n + 1, i, w =>
    match body i w with
    | (w1, some err) => (w1, some err)
    | (w1, none) => forLoop body n (i + 1) w1

/-- The body of the loop of `AddPreroutingFilters`, source lines 75-96, over the locals it
reads. `destinationIPs[i]` is in range whenever the body runs. -/
def addIteration (sh : Shell) (sourceIP sourcePort : String) (destinationIPs : List String)
    (destinationPort : String) (numIps i : Nat) (w : World) : World × Option GoError :=
  let probability := F64.div F64.one (float64 (numIps - i))
  let command := Sprintf
    "iptables -t nat -A PREROUTING -p tcp -d %s --dport %s -m state --state NEW -m statistic --mode random --probability %f -j DNAT --to-destination %s:%s"
    [Arg.str sourceIP, Arg.str sourcePort, Arg.float probability,
      Arg.str (destinationIPs.getD i ""), Arg.str destinationPort]
  match executeShellCommand sh command w with
  | (w1, some err) => (logMessage "Error adding prerouting filter on DNAT." w1, some err)
  | (w1, none) =>
    let command := Sprintf
      "iptables -t nat -A OUTPUT -p tcp -d %s --dport %s -m state --state NEW -m statistic --mode random --probability %f -j DNAT --to-destination %s:%s"
      [Arg.str sourceIP, Arg.str sourcePort, Arg.float probability,
        Arg.str (destinationIPs.getD i ""), Arg.str destinationPort]
    match executeShellCommand sh command w1 with
    | (w2, err) =>
      let w3 := logMessage (Sprintf "Added a filter %v" [Arg.str command]) w2
      match err with
      | some err => (logMessage "Error adding output filter on DNAT." w3, some err)
      | none => (w3, none)

/-- Source lines 66-100. The `err` returned on line 99 is the one declared on line 72,
which no statement assigns (the loop body declares its own), so it is `nil`. -/
def AddPreroutingFilters (sh : Shell) (loadBalancerConfig : LBConfiguration) (w : World) :
    World × Option GoError :=
  let sourceIP := loadBalancerConfig.SourceIP
  let sourcePort := loadBalancerConfig.SourcePort
  let destinationIPs := loadBalancerConfig.DestinationConfig.IPAddresses
  let destinationPort := loadBalancerConfig.DestinationConfig.Port
  let numIps := destinationIPs.length
  match forLoop (addIteration sh sourceIP sourcePort destinationIPs destinationPort numIps)
      numIps 0 w with
  | (w1, some err) => (w1, some err)
  | (w1, none) => (logMessage "Finished adding filter rules to Load Balancer." w1, none)

/-- The body of the loop of `DeletePreroutingFilters`, source lines 112-132. The message
logged when the PREROUTING removal fails is the one of line 120. -/
def deleteIteration (sh : Shell) (sourceIP sourcePort : String) (destinationIPs : List String)
    (destinationPort : String) (numIps i : Nat) (w : World) : World × Option GoError :=
  let probability := F64.div F64.one (float64 (numIps - i))
  let command := Sprintf
    "iptables -t nat -D PREROUTING -p tcp -d %s --dport %s -m state --state NEW -m statistic --mode random --probability %f -j DNAT --to-destination %s:%s"
    [Arg.str sourceIP, Arg.str sourcePort, Arg.float probability,
      Arg.str (destinationIPs.getD i ""), Arg.str destinationPort]
  match executeShellCommand sh command w with
  | (w1, some err) => (logMessage "Error adding prerouting filter on DNAT." w1, some err)
  | (w1, none) =>
    let command := Sprintf
      "iptables -t nat -D OUTPUT -p tcp -d %s --dport %s -m state --state NEW -m statistic --mode random --probability %f -j DNAT --to-destination %s:%s"
      [Arg.str sourceIP, Arg.str sourcePort, Arg.float probability,
        Arg.str (destinationIPs.getD i ""), Arg.str destinationPort]
    match executeShellCommand sh command w1 with
    | (w2, some err) => (logMessage "Error deleting output filter on DNAT." w2, some err)
    | (w2, none) => (w2, none)

/-- Source lines 103-136. -/
def DeletePreroutingFilters (sh : Shell) (loadBalancerConfig : LBConfiguration) (w : World) :
    World × Option GoError :=
  let sourceIP := loadBalancerConfig.SourceIP
  let sourcePort := loadBalancerConfig.SourcePort
  let destinationIPs := loadBalancerConfig.DestinationConfig.IPAddresses
  let destinationPort := loadBalancerConfig.DestinationConfig.Port
  let numIps := destinationIPs.length
  match forLoop (deleteIteration sh sourceIP sourcePort destinationIPs destinationPort numIps)
      numIps 0 w with
  | (w1, some err) => (w1, some err)
  | (w1, none) => (logMessage "Finished deleting filter rules to Load Balancer." w1, none)

/-! ## Specification-side definitions -/

/-- The value of the local `probability` in iteration `i` of either loop, for `numIps`
destinations (source lines 75 and 112). -/
def probability (numIps i : Nat) : F64 := F64.div F64.one (float64 (numIps - i))

/-- The values `probability` takes over the iterations `i = 0, …, numIps-1` of either
loop. -/
def probabilities (numIps : Nat) : List F64 := (List.range numIps).map (probability numIps)

/-- The match and target part of a rule, after the chain name, in the words of the
specification: TCP, destination `sourceIP`, destination port `sourcePort`, connection state
NEW, statistic random mode with probability `p` printed by `%f`, DNAT to
`dest:destinationPort`. -/
def ruleMatch (cfg : LBConfiguration) (p : F64) (dest : String) : String :=
  " -p tcp -d " ++ cfg.SourceIP ++ " --dport " ++ cfg.SourcePort ++
    " -m state --state NEW -m statistic --mode random --probability " ++ fmtFloat p ++
    " -j DNAT --to-destination " ++ dest ++ ":" ++ cfg.DestinationConfig.Port

/-- The rule on `chain` with probability `p` and backend `dest`, without the leading
`iptables -t nat` and action flag. -/
def ruleSpec (chain : String) (cfg : LBConfiguration) (p : F64) (dest : String) : String :=
  chain ++ ruleMatch cfg p dest

/-- The `-A` command on `chain` for position `i` of the destination list. -/
def installCommand (cfg : LBConfiguration) (chain : String) (i : Nat) : String :=
  "iptables -t nat -A " ++ ruleSpec chain cfg
    (probability cfg.DestinationConfig.IPAddresses.length i)
    (cfg.DestinationConfig.IPAddresses.getD i "")

/-- The `-D` command on `chain` for position `i` of the destination list. -/
def uninstallCommand (cfg : LBConfiguration) (chain : String) (i : Nat) : String :=
  "iptables -t nat -D " ++ ruleSpec chain cfg
    (probability cfg.DestinationConfig.IPAddresses.length i)
    (cfg.DestinationConfig.IPAddresses.getD i "")

/-- A shell on which every command succeeds. -/
def alwaysOk : Shell := fun _ _ => none

/-- The commands a fully successful install runs. -/
def fullInstall (cfg : LBConfiguration) : List String :=
  (AddPreroutingFilters alwaysOk cfg World.start).1.issued

/-- The commands a fully successful uninstall runs. -/
def fullUninstall (cfg : LBConfiguration) : List String :=
  (DeletePreroutingFilters alwaysOk cfg World.start).1.issued

/-- Running `cmds` in order from an empty history, the shell answers `nil` to the first
`k - 1` of them and the error `e` to the `k`-th (`k` counts from one). -/
def FailsFirstAt (sh : Shell) (cmds : List String) (k : Nat) (e : GoError) : Prop :=
  (∀ j, j < k - 1 → sh (cmds.take j) (cmds.getD j "") = none) ∧
    sh (cmds.take (k - 1)) (cmds.getD (k - 1) "") = some e

instance (sh : Shell) (cmds : List String) (k : Nat) (e : GoError) :
    Decidable (FailsFirstAt sh cmds k e) := by
  unfold FailsFirstAt; infer_instance

/-- Running `cmds` in order from an empty history, the shell answers `nil` to each. -/
def SucceedsOn (sh : Shell) (cmds : List String) : Prop :=
  ∀ j, j < cmds.length → sh (cmds.take j) (cmds.getD j "") = none

instance (sh : Shell) (cmds : List String) : Decidable (SucceedsOn sh cmds) := by
  unfold SucceedsOn; infer_instance

/-- A shell that fails the `n`-th command it is given (counting from one) with
`exit status 1`, and no other. -/
def failAt (n : Nat) : Shell :=
  fun hist _ => if hist.length + 1 = n then some "exit status 1" else none

/-- A shell on which every command fails. -/
def alwaysFails : Shell := fun _ _ => some "exit status 1"

/-- A configuration with two backends. -/
def cfgTwo : LBConfiguration := ⟨"10.0.0.1", "80", ⟨["10.0.0.2", "10.0.0.3"], "8080"⟩⟩

/-- A configuration with no backend. -/
def cfgNone : LBConfiguration := ⟨"10.0.0.1", "80", ⟨[], "8080"⟩⟩

/-- Runs the commands in order after the history `hist`, stopping after the first one the
shell fails: the history reached and the error, if any. -/
def runSeq (sh : Shell) : List String → List String → List String × Option GoError
  | [], hist => (hist, none)
  | c :: cs, hist =>
    match sh hist c with
    | some err => (hist ++ [c], some err)
    | none => runSeq sh cs (hist ++ [c])

/-- The commands `pre i, out i, pre (i+1), out (i+1), …` for `n` consecutive positions. -/
def rulePairs (pre out : Nat → String) : Nat → Nat → List String
  | 0, _ => []
  | n + 1, i => pre i :: out i :: rulePairs pre out n (i + 1)

/-- The rationals a float64 can hold, exponent range aside: `m * 2 ^ e` with a significand
`m` of at most 53 bits. -/
def IsFloat64 (q : ℚ) : Prop := ∃ (m : ℕ) (e : ℤ), m < 2 ^ 53 ∧ q = (m : ℚ) * 2 ^ e

/-- The source expression `1 / float64(numIps-i)` read over the rationals, without
rounding: the probability the specification plans for position `i`. -/
def idealProbability (numIps i : Nat) : ℚ := 1 / ((numIps - i : ℕ) : ℚ)

/-- The chance that rule `i` is the one that takes a packet when the rules are tried in
order and rule `j` accepts with probability `p j`: rules `0, …, i - 1` reject it and rule `i`
accepts it. -/
def matchChance (p : Nat → ℚ) (i : Nat) : ℚ := (∏ j in Finset.range i, (1 - p j)) * p i

/-! ## float64 rounding -/

theorem roundHalfEven_bounds (num den : Nat) (hden : 0 < den) :
    2 * den * roundHalfEven num den ≤ 2 * num + den ∧
      2 * num ≤ 2 * den * roundHalfEven num den + den := by
  have hdm := Nat.div_add_mod num den
  have hlt := Nat.mod_lt num hden
  unfold roundHalfEven
  simp only []
  generalize num / den = q at *
  generalize num % den = r at *
  have e1 : 2 * den * (q + 1) = 2 * (den * q) + 2 * den := by ring
  have e0 : 2 * den * q = 2 * (den * q) := by ring
  split_ifs <;> (first | rw [e1] | rw [e0]) <;> omega

theorem roundHalfEven_err (num den : Nat) (hden : 0 < den) :
    |(roundHalfEven num den : ℚ) - (num : ℚ) / den| ≤ 1 / 2 := by
  obtain ⟨h1, h2⟩ := roundHalfEven_bounds num den hden
  have hd : (0 : ℚ) < den := by exact_mod_cast hden
  have h1q : (2 : ℚ) * den * roundHalfEven num den ≤ 2 * num + den := by exact_mod_cast h1
  have h2q : (2 : ℚ) * num ≤ 2 * den * roundHalfEven num den + den := by exact_mod_cast h2
  rw [abs_le]
  constructor
  · rw [neg_le_sub_iff_le_add, div_le_iff₀ hd]
    linarith
  · rw [sub_le_iff_le_add, ← sub_le_iff_le_add', le_div_iff₀ hd]
    linarith

theorem two_zpow_split (z : ℤ) :
    (2 : ℚ) ^ z = (2 : ℚ) ^ z.toNat / (2 : ℚ) ^ (-z).toNat := by
  rcases le_total 0 z with h | h
  · have h0 : (-z).toNat = 0 := by omega
    rw [h0, pow_zero, div_one, ← zpow_natCast, Int.toNat_of_nonneg h]
  · have h0 : z.toNat = 0 := by omega
    have h1 : ((-z).toNat : ℤ) = -z := Int.toNat_of_nonneg (by omega)
    rw [h0, pow_zero, one_div, ← zpow_natCast, h1, zpow_neg, inv_inv]

theorem bitLen_bounds : ∀ fuel n, n ≤ fuel → 0 < n →
    n < 2 ^ bitLen fuel n ∧ 2 ^ bitLen fuel n ≤ 2 * n := by
  intro fuel
  induction fuel with
  | zero => intro n h1 h2; omega
  | succ f ih =>
    intro n h1 h2
    have hn : n ≠ 0 := by omega
    simp only [bitLen, hn, if_false]
    rcases Nat.eq_zero_or_pos (n / 2) with h | h
    · have : n = 1 := by omega
      subst this
      cases f <;> simp [bitLen]
    · obtain ⟨ha, hb⟩ := ih (n / 2) (by omega) h
      rw [pow_succ]
      constructor <;> omega


theorem floorLog2_le (num den : Nat) (hnum : 0 < num) (hden : 0 < den) :
    (2 : ℚ) ^ floorLog2 num den ≤ (num : ℚ) / den := by
  have hd : (0 : ℚ) < den := by exact_mod_cast hden
  unfold floorLog2
  simp only []
  split_ifs with hc
  · rw [two_zpow_split, div_le_div_iff₀ (by positivity) hd]
    have : ((den * 2 ^ (((bitLen num num : ℤ) - (bitLen den den : ℤ)).toNat) : ℕ) : ℚ) ≤
        ((num * 2 ^ ((-((bitLen num num : ℤ) - (bitLen den den : ℤ))).toNat) : ℕ) : ℚ) := by
      exact_mod_cast hc
    push_cast at this
    linarith
  · obtain ⟨-, hb⟩ := bitLen_bounds num num le_rfl hnum
    obtain ⟨ha, -⟩ := bitLen_bounds den den le_rfl hden
    have hbq : (2 : ℚ) ^ bitLen num num ≤ 2 * num := by exact_mod_cast hb
    have haq : (den : ℚ) ≤ 2 ^ bitLen den den := by exact_mod_cast ha.le
    have h2 : (2 : ℚ) ≠ 0 := by norm_num
    rw [zpow_sub₀ h2, zpow_sub₀ h2, zpow_natCast, zpow_natCast, zpow_one, div_div,
      div_le_div_iff₀ (by positivity) hd]
    have hp : (0 : ℚ) < 2 ^ bitLen den den := by positivity
    have hn : (0 : ℚ) ≤ num := by positivity
    nlinarith [mul_le_mul hbq haq hd.le (by positivity : (0 : ℚ) ≤ 2 * num)]

theorem roundToF64_err (num den : Nat) (hnum : 0 < num) (hden : 0 < den) :
    |(roundToF64 num den).toRat - (num : ℚ) / den| ≤ (num : ℚ) / den / 2 ^ 53 := by
  have hlog := floorLog2_le num den hnum hden
  have hd : (0 : ℚ) < den := by exact_mod_cast hden
  have hne : ¬ (num = 0 ∨ den = 0) := by omega
  simp only [roundToF64, hne, if_false, F64.toRat]
  generalize floorLog2 num den = e at *
  have hs := two_zpow_split (52 - e)
  have herr := roundHalfEven_err (num * 2 ^ (52 - e).toNat) (den * 2 ^ (-(52 - e)).toNat)
    (by positivity)
  push_cast at herr
  generalize (roundHalfEven (num * 2 ^ (52 - e).toNat) (den * 2 ^ (-(52 - e)).toNat) : ℚ) = m
    at *
  have hpos : (0 : ℚ) < 2 ^ (52 - e) := by positivity
  have hq : (num : ℚ) * 2 ^ (52 - e).toNat / (den * 2 ^ (-(52 - e)).toNat) =
      (num : ℚ) / den * 2 ^ (52 - e) := by
    rw [hs]; field_simp
  rw [hq] at herr
  have hinv : (2 : ℚ) ^ (-(52 - e)) = (2 ^ (52 - e))⁻¹ := zpow_neg _ _
  have hfac : m * 2 ^ (-(52 - e)) - (num : ℚ) / den =
      (m - (num : ℚ) / den * 2 ^ (52 - e)) * (2 ^ (52 - e))⁻¹ := by
    rw [hinv]; field_simp; ring
  rw [hfac, abs_mul, abs_of_pos (inv_pos.mpr hpos)]
  have he : (2 : ℚ) ^ (52 - e) = 2 ^ (52 : ℤ) / 2 ^ e := zpow_sub₀ (by norm_num) _ _
  have hepos : (0 : ℚ) < 2 ^ e := by positivity
  calc |m - (num : ℚ) / den * 2 ^ (52 - e)| * (2 ^ (52 - e))⁻¹
      ≤ 1 / 2 * (2 ^ (52 - e))⁻¹ := by
        apply mul_le_mul_of_nonneg_right herr (inv_nonneg.mpr hpos.le)
    _ = 2 ^ e / 2 ^ 53 := by
        rw [he]; field_simp; norm_num
    _ ≤ (num : ℚ) / den / 2 ^ 53 := by
        apply div_le_div_of_nonneg_right hlog (by positivity)


theorem floorLog2_lt (num den : Nat) (hnum : 0 < num) (hden : 0 < den) :
    (num : ℚ) / den < (2 : ℚ) ^ (floorLog2 num den + 1) := by
  have hd : (0 : ℚ) < den := by exact_mod_cast hden
  have h2 : (2 : ℚ) ≠ 0 := by norm_num
  unfold floorLog2
  simp only []
  split_ifs with hc
  · obtain ⟨ha, -⟩ := bitLen_bounds num num le_rfl hnum
    obtain ⟨-, hb⟩ := bitLen_bounds den den le_rfl hden
    have haq : (num : ℚ) < 2 ^ bitLen num num := by exact_mod_cast ha
    have hbq : (2 : ℚ) ^ bitLen den den ≤ 2 * den := by exact_mod_cast hb
    rw [zpow_add₀ h2, zpow_sub₀ h2, zpow_natCast, zpow_natCast, zpow_one,
      div_lt_iff₀ hd]
    have hp : (0 : ℚ) < 2 ^ bitLen den den := by positivity
    have hp2 : (0 : ℚ) < 2 ^ bitLen num num := by positivity
    rw [div_mul_eq_mul_div, div_mul_eq_mul_div, lt_div_iff₀ hp]
    nlinarith [mul_le_mul_of_nonneg_left hbq hp2.le]
  · rw [sub_add_cancel, two_zpow_split, div_lt_div_iff₀ hd (by positivity)]
    have : ((num * 2 ^ ((-((bitLen num num : ℤ) - (bitLen den den : ℤ))).toNat) : ℕ) : ℚ) <
        ((den * 2 ^ (((bitLen num num : ℤ) - (bitLen den den : ℤ)).toNat) : ℕ) : ℚ) := by
      exact_mod_cast not_le.mp hc
    push_cast at this
    linarith

theorem roundHalfEven_nearest (num den : Nat) (hden : 0 < den) (k : Nat) :
    |(roundHalfEven num den : ℚ) - (num : ℚ) / den| ≤ |(k : ℚ) - (num : ℚ) / den| := by
  have h := roundHalfEven_err num den hden
  rcases lt_trichotomy k (roundHalfEven num den) with hk | hk | hk
  · have h1 : (k : ℚ) + 1 ≤ roundHalfEven num den := by exact_mod_cast hk
    have h2 := abs_le.mp h
    have h3 : (k : ℚ) - (num : ℚ) / den ≤ -(1 / 2) := by linarith [h2.2]
    rw [abs_of_nonpos (by linarith : (k : ℚ) - (num : ℚ) / den ≤ 0)]
    linarith
  · rw [hk]
  · have h1 : (roundHalfEven num den : ℚ) + 1 ≤ k := by exact_mod_cast hk
    have h2 := abs_le.mp h
    have h3 : 1 / 2 ≤ (k : ℚ) - (num : ℚ) / den := by linarith [h2.1]
    rw [abs_of_nonneg (by linarith : 0 ≤ (k : ℚ) - (num : ℚ) / den)]
    linarith


theorem roundToF64_scaled (num den : Nat) (hden : 0 < den) (e : ℤ) :
    ((num * 2 ^ (52 - e).toNat : ℕ) : ℚ) / ((den * 2 ^ (-(52 - e)).toNat : ℕ) : ℚ) =
      (num : ℚ) / den * 2 ^ (52 - e) := by
  have hd : (den : ℚ) ≠ 0 := by exact_mod_cast hden.ne.symm
  rw [two_zpow_split (52 - e)]
  push_cast
  field_simp

theorem roundToF64_nearest (num den : Nat) (hnum : 0 < num) (hden : 0 < den) (y : ℚ)
    (hy : IsFloat64 y) :
    |(roundToF64 num den).toRat - (num : ℚ) / den| ≤ |y - (num : ℚ) / den| := by
  have hlo := floorLog2_le num den hnum hden
  have hne : ¬ (num = 0 ∨ den = 0) := by omega
  have h2 : (2 : ℚ) ≠ 0 := by norm_num
  simp only [roundToF64, hne, if_false, F64.toRat]
  generalize floorLog2 num den = e at *
  have hK := roundHalfEven_nearest (num * 2 ^ (52 - e).toNat) (den * 2 ^ (-(52 - e)).toNat)
    (by positivity)
  rw [roundToF64_scaled num den hden e] at hK
  generalize (roundHalfEven (num * 2 ^ (52 - e).toNat) (den * 2 ^ (-(52 - e)).toNat) : ℚ) = m
    at *
  generalize (num : ℚ) / den = x at *
  have hU : (0 : ℚ) < 2 ^ (52 - e) := by positivity
  have hinv : (2 : ℚ) ^ (-(52 - e)) = (2 ^ (52 - e))⁻¹ := zpow_neg _ _
  have hxU : (2 : ℚ) ^ (52 : ℕ) ≤ x * 2 ^ (52 - e) := by
    have : (2 : ℚ) ^ e * 2 ^ (52 - e) = 2 ^ (52 : ℕ) := by
      rw [← zpow_add₀ h2, ← zpow_natCast]; congr 1; omega
    rw [← this]
    exact mul_le_mul_of_nonneg_right hlo hU.le
  have hl : m * 2 ^ (-(52 - e)) - x = (m - x * 2 ^ (52 - e)) * (2 ^ (52 - e))⁻¹ := by
    rw [hinv]; field_simp; ring
  have hr : y - x = (y * 2 ^ (52 - e) - x * 2 ^ (52 - e)) * (2 ^ (52 - e))⁻¹ := by
    field_simp; ring
  rw [hl, hr, abs_mul, abs_mul]
  apply mul_le_mul_of_nonneg_right _ (abs_nonneg _)
  obtain ⟨m1, e1, hm1, rfl⟩ := hy
  have hyU : (m1 : ℚ) * 2 ^ e1 * 2 ^ (52 - e) = m1 * 2 ^ (e1 + (52 - e)) := by
    rw [mul_assoc, ← zpow_add₀ h2]
  rw [hyU]
  rcases le_or_lt 0 (e1 + (52 - e)) with hz | hz
  · have hk := hK (m1 * 2 ^ (e1 + (52 - e)).toNat)
    push_cast at hk
    rw [← zpow_natCast, Int.toNat_of_nonneg hz] at hk
    exact hk
  · have hsmall : (m1 : ℚ) * 2 ^ (e1 + (52 - e)) ≤ 2 ^ (52 : ℕ) := by
      have h1 : (2 : ℚ) ^ (e1 + (52 - e)) ≤ 2 ^ (-1 : ℤ) :=
        zpow_le_zpow_right₀ (by norm_num) (by omega)
      have h3 : (m1 : ℚ) ≤ 2 ^ 53 := by exact_mod_cast hm1.le
      have h4 : (0 : ℚ) ≤ 2 ^ (e1 + (52 - e)) := by positivity
      calc (m1 : ℚ) * 2 ^ (e1 + (52 - e)) ≤ 2 ^ 53 * 2 ^ (-1 : ℤ) :=
            mul_le_mul h3 h1 h4 (by positivity)
        _ = 2 ^ (52 : ℕ) := by norm_num
    have hk := hK (2 ^ 52)
    rw [show ((2 ^ 52 : ℕ) : ℚ) = (2 : ℚ) ^ (52 : ℕ) by norm_num] at hk
    rw [abs_of_nonpos (by linarith : (2 : ℚ) ^ 52 - x * 2 ^ (52 - e) ≤ 0)] at hk
    rw [abs_of_nonpos (by linarith :
      (m1 : ℚ) * 2 ^ (e1 + (52 - e)) - x * 2 ^ (52 - e) ≤ 0)]
    linarith

theorem roundToF64_isFloat64 (num den : Nat) (hnum : 0 < num) (hden : 0 < den) :
    IsFloat64 (roundToF64 num den).toRat := by
  have hhi := floorLog2_lt num den hnum hden
  have hne : ¬ (num = 0 ∨ den = 0) := by omega
  have h2 : (2 : ℚ) ≠ 0 := by norm_num
  simp only [roundToF64, hne, if_false, F64.toRat]
  generalize floorLog2 num den = e at *
  have herr := roundHalfEven_err (num * 2 ^ (52 - e).toNat) (den * 2 ^ (-(52 - e)).toNat)
    (by positivity)
  rw [roundToF64_scaled num den hden e] at herr
  have hU : (0 : ℚ) < 2 ^ (52 - e) := by positivity
  have hxU : (num : ℚ) / den * 2 ^ (52 - e) < 2 ^ (53 : ℕ) := by
    have : (2 : ℚ) ^ (e + 1) * 2 ^ (52 - e) = 2 ^ (53 : ℕ) := by
      rw [← zpow_add₀ h2, ← zpow_natCast]; congr 1; omega
    rw [← this]
    exact mul_lt_mul_of_pos_right hhi hU
  have hm : roundHalfEven (num * 2 ^ (52 - e).toNat) (den * 2 ^ (-(52 - e)).toNat) ≤ 2 ^ 53 := by
    by_contra hcon
    have h1 : ((2 ^ 53 : ℕ) : ℚ) + 1 ≤
        roundHalfEven (num * 2 ^ (52 - e).toNat) (den * 2 ^ (-(52 - e)).toNat) := by
      exact_mod_cast not_le.mp hcon
    push_cast at h1
    have := (abs_le.mp herr).2
    linarith
  rcases Nat.lt_or_ge (roundHalfEven (num * 2 ^ (52 - e).toNat)
    (den * 2 ^ (-(52 - e)).toNat)) (2 ^ 53) with hlt | hge
  · exact ⟨_, _, hlt, rfl⟩
  · have heq := le_antisymm hm hge
    refine ⟨1, 53 + -(52 - e), by norm_num, ?_⟩
    rw [heq, zpow_add₀ h2]
    norm_num

theorem float64_exact (n : Nat) (hpos : 0 < n) (hlt : n < 2 ^ 53) :
    (float64 n).toRat = n := by
  have hlog := floorLog2_le n 1 hpos Nat.one_pos
  have hne : ¬ (n = 0 ∨ 1 = 0) := by omega
  simp only [float64, roundToF64, hne, if_false, F64.toRat]
  generalize floorLog2 n 1 = e at *
  have he : e < 53 := by
    have h1 : (2 : ℚ) ^ e < 2 ^ (53 : ℤ) := by
      have : ((n : ℕ) : ℚ) < ((2 ^ 53 : ℕ) : ℚ) := by exact_mod_cast hlt
      calc (2 : ℚ) ^ e ≤ (n : ℚ) / (1 : ℕ) := hlog
        _ = n := by simp
        _ < 2 ^ (53 : ℤ) := by push_cast at this; exact_mod_cast this
    exact (zpow_lt_zpow_iff_right₀ (by norm_num : (1 : ℚ) < 2)).mp h1
  have h0 : (-(52 - e)).toNat = 0 := by omega
  have hr : roundHalfEven (n * 2 ^ (52 - e).toNat) (1 * 2 ^ 0) = n * 2 ^ (52 - e).toNat := by
    simp [roundHalfEven, Nat.mod_one]
  rw [h0, hr, zpow_neg, two_zpow_split (52 - e), h0]
  push_cast
  field_simp

theorem roundHalfEven_scale (c a b : Nat) (hc : 0 < c) :
    roundHalfEven (c * a) (c * b) = roundHalfEven a b := by
  unfold roundHalfEven
  simp only [Nat.mul_div_mul_left a b hc, Nat.mul_mod_mul_left]
  have h1 : 2 * (c * (a % b)) < c * b ↔ 2 * (a % b) < b := by
    rw [show 2 * (c * (a % b)) = c * (2 * (a % b)) by ring]
    exact Nat.mul_lt_mul_left hc
  have h2 : c * b < 2 * (c * (a % b)) ↔ b < 2 * (a % b) := by
    rw [show 2 * (c * (a % b)) = c * (2 * (a % b)) by ring]
    exact Nat.mul_lt_mul_left hc
  simp only [h1, h2]

theorem floorLog2_unique (num den : Nat) (hnum : 0 < num) (hden : 0 < den) (e : ℤ)
    (hlo : (2 : ℚ) ^ e ≤ (num : ℚ) / den) (hhi : (num : ℚ) / den < (2 : ℚ) ^ (e + 1)) :
    floorLog2 num den = e := by
  have h1 := floorLog2_le num den hnum hden
  have h2 := floorLog2_lt num den hnum hden
  have hb : (1 : ℚ) < 2 := by norm_num
  have ha : floorLog2 num den < e + 1 :=
    (zpow_lt_zpow_iff_right₀ hb).mp (lt_of_le_of_lt h1 hhi)
  have hc : e < floorLog2 num den + 1 :=
    (zpow_lt_zpow_iff_right₀ hb).mp (lt_of_le_of_lt hlo h2)
  omega

theorem floorLog2_scale (c a b : Nat) (hc : 0 < c) (ha : 0 < a) (hb : 0 < b) :
    floorLog2 (c * a) (c * b) = floorLog2 a b := by
  have hc0 : (c : ℚ) ≠ 0 := by exact_mod_cast hc.ne.symm
  have hq : ((c * a : ℕ) : ℚ) / ((c * b : ℕ) : ℚ) = (a : ℚ) / b := by
    push_cast
    rw [mul_div_mul_left _ _ hc0]
  apply floorLog2_unique _ _ (by positivity) (by positivity)
  · rw [hq]; exact floorLog2_le a b ha hb
  · rw [hq]; exact floorLog2_lt a b ha hb

theorem roundToF64_scale (c a b : Nat) (hc : 0 < c) (ha : 0 < a) (hb : 0 < b) :
    roundToF64 (c * a) (c * b) = roundToF64 a b := by
  have h1 : ¬ (c * a = 0 ∨ c * b = 0) := by
    have := Nat.mul_pos hc ha
    have := Nat.mul_pos hc hb
    omega
  have h2 : ¬ (a = 0 ∨ b = 0) := by omega
  simp only [roundToF64, h1, h2, if_false, floorLog2_scale c a b hc ha hb, Nat.mul_assoc,
    roundHalfEven_scale _ _ _ hc]

theorem float64_repr (n : Nat) (hpos : 0 < n) (hlt : n < 2 ^ 53) :
    ∃ P : ℕ, float64 n = ⟨n * 2 ^ P, -(P : ℤ)⟩ := by
  have hlog := floorLog2_le n 1 hpos Nat.one_pos
  have hne : ¬ (n = 0 ∨ 1 = 0) := by omega
  simp only [float64, roundToF64, hne, if_false]
  generalize floorLog2 n 1 = e at *
  have he : e < 53 := by
    have h1 : (2 : ℚ) ^ e < 2 ^ (53 : ℤ) := by
      have : ((n : ℕ) : ℚ) < ((2 ^ 53 : ℕ) : ℚ) := by exact_mod_cast hlt
      calc (2 : ℚ) ^ e ≤ (n : ℚ) / (1 : ℕ) := hlog
        _ = n := by simp
        _ < 2 ^ (53 : ℤ) := by push_cast at this; exact_mod_cast this
    exact (zpow_lt_zpow_iff_right₀ (by norm_num : (1 : ℚ) < 2)).mp h1
  have h0 : (-(52 - e)).toNat = 0 := by omega
  have hr : roundHalfEven (n * 2 ^ (52 - e).toNat) (1 * 2 ^ 0) = n * 2 ^ (52 - e).toNat := by
    simp [roundHalfEven, Nat.mod_one]
  refine ⟨(52 - e).toNat, ?_⟩
  rw [h0, hr, Int.toNat_of_nonneg (by omega)]

theorem F64_div_one_float64 (n : Nat) (hpos : 0 < n) (hlt : n < 2 ^ 53) :
    F64.div F64.one (float64 n) = roundToF64 1 n := by
  obtain ⟨P, hP⟩ := float64_repr n hpos hlt
  rw [hP]
  simp only [F64.div, F64.one]
  have e1 : (-(-(P : ℤ))).toNat = P := by simp
  have e2 : (-(P : ℤ)).toNat = 0 := by omega
  have e3 : (0 : ℤ).toNat = 0 := rfl
  have e4 : (-(0 : ℤ)).toNat = 0 := rfl
  rw [e1, e2, e3, e4]
  have : roundToF64 (1 * 2 ^ 0 * 2 ^ P) (n * 2 ^ P * 2 ^ 0 * 2 ^ 0) =
      roundToF64 (2 ^ P * 1) (2 ^ P * n) := by
    congr 1 <;> ring
  rw [this, roundToF64_scale _ _ _ (by positivity) Nat.one_pos hpos]

theorem F64_div_ratio (a b : F64) (hb : 0 < b.mant) :
    ((a.mant * 2 ^ a.exp.toNat * 2 ^ (-b.exp).toNat : ℕ) : ℚ) /
      ((b.mant * 2 ^ b.exp.toNat * 2 ^ (-a.exp).toNat : ℕ) : ℚ) = a.toRat / b.toRat := by
  have hb0 : (b.mant : ℚ) ≠ 0 := by exact_mod_cast hb.ne.symm
  simp only [F64.toRat]
  rw [two_zpow_split a.exp, two_zpow_split b.exp]
  push_cast
  have h1 : (2 : ℚ) ^ a.exp.toNat ≠ 0 := by positivity
  have h2 : (2 : ℚ) ^ (-a.exp).toNat ≠ 0 := by positivity
  have h3 : (2 : ℚ) ^ b.exp.toNat ≠ 0 := by positivity
  have h4 : (2 : ℚ) ^ (-b.exp).toNat ≠ 0 := by positivity
  rw [div_eq_div_iff (by positivity) (by positivity)]
  field_simp
  ring

theorem F64_div_err (a b : F64) (ha : 0 < a.mant) (hb : 0 < b.mant) :
    |(F64.div a b).toRat - a.toRat / b.toRat| ≤ a.toRat / b.toRat / 2 ^ 53 := by
  have h := roundToF64_err (a.mant * 2 ^ a.exp.toNat * 2 ^ (-b.exp).toNat)
    (b.mant * 2 ^ b.exp.toNat * 2 ^ (-a.exp).toNat) (by positivity) (by positivity)
  rw [F64_div_ratio a b hb] at h
  exact h

theorem F64_div_nearest (a b : F64) (ha : 0 < a.mant) (hb : 0 < b.mant) (y : ℚ)
    (hy : IsFloat64 y) :
    |(F64.div a b).toRat - a.toRat / b.toRat| ≤ |y - a.toRat / b.toRat| := by
  have h := roundToF64_nearest (a.mant * 2 ^ a.exp.toNat * 2 ^ (-b.exp).toNat)
    (b.mant * 2 ^ b.exp.toNat * 2 ^ (-a.exp).toNat) (by positivity) (by positivity) y hy
  rw [F64_div_ratio a b hb] at h
  exact h

theorem F64_div_isFloat64 (a b : F64) (ha : 0 < a.mant) (hb : 0 < b.mant) :
    IsFloat64 (F64.div a b).toRat :=
  roundToF64_isFloat64 _ _ (by positivity) (by positivity)

theorem float64_mant_pos (n : Nat) (hpos : 0 < n) (hlt : n < 2 ^ 53) :
    0 < (float64 n).mant := by
  have hx := float64_exact n hpos hlt
  rcases Nat.eq_zero_or_pos (float64 n).mant with h | h
  · have hq : (0 : ℚ) < (n : ℚ) := by exact_mod_cast hpos
    rw [← hx, F64.toRat, h] at hq
    simp at hq
  · exact h

theorem F64_one_toRat : F64.one.toRat = 1 := by simp [F64.toRat, F64.one]

theorem probability_err (N i : Nat) (hi : i < N) (hN : N < 2 ^ 53) :
    |(probability N i).toRat - idealProbability N i| ≤ idealProbability N i / 2 ^ 53 := by
  have h := F64_div_err F64.one (float64 (N - i)) (by decide)
    (float64_mant_pos (N - i) (by omega) (by omega))
  rw [float64_exact (N - i) (by omega) (by omega), F64_one_toRat] at h
  exact h

theorem probability_nearest (N i : Nat) (hi : i < N) (hN : N < 2 ^ 53) (y : ℚ)
    (hy : IsFloat64 y) :
    |(probability N i).toRat - idealProbability N i| ≤ |y - idealProbability N i| := by
  have h := F64_div_nearest F64.one (float64 (N - i)) (by decide)
    (float64_mant_pos (N - i) (by omega) (by omega)) y hy
  rw [float64_exact (N - i) (by omega) (by omega), F64_one_toRat] at h
  exact h

theorem probability_isFloat64 (N i : Nat) (hi : i < N) (hN : N < 2 ^ 53) :
    IsFloat64 (probability N i).toRat :=
  F64_div_isFloat64 _ _ (by decide) (float64_mant_pos (N - i) (by omega) (by omega))

theorem probability_last : (F64.div F64.one (float64 1)).toRat = 1 := by
  have h : F64.div F64.one (float64 1) = ⟨4503599627370496, -52⟩ := by decide
  rw [h]
  norm_num [F64.toRat]

theorem probability_half : (F64.div F64.one (float64 2)).toRat = 1 / 2 := by
  have h : F64.div F64.one (float64 2) = ⟨4503599627370496, -53⟩ := by decide
  rw [h]
  norm_num [F64.toRat]

theorem probability_third :
    (F64.div F64.one (float64 3)).toRat = 6004799503160661 / 18014398509481984 := by
  have h : F64.div F64.one (float64 3) = ⟨6004799503160661, -54⟩ := by decide
  rw [h]
  norm_num [F64.toRat]

theorem probabilities_getElem (N i : Nat) (hi : i < N) :
    (probabilities N)[i]? = some (F64.div F64.one (float64 (N - i))) := by
  simp [probabilities, probability, List.getElem?_range hi]

theorem probabilities_last (N : Nat) (hN : 1 ≤ N) :
    (probabilities N).getLast?.map F64.toRat = some 1 := by
  have hlen : (probabilities N).length = N := by simp [probabilities]
  rw [List.getLast?_eq_getElem?, hlen, probabilities_getElem N (N - 1) (by omega)]
  have : N - (N - 1) = 1 := by omega
  rw [this]
  simp [probability_last]

theorem probabilities_three :
    (probabilities 3).map F64.toRat = [6004799503160661 / 18014398509481984, 1 / 2, 1] := by
  have : probabilities 3 = [F64.div F64.one (float64 3), F64.div F64.one (float64 2),
      F64.div F64.one (float64 1)] := by
    simp [probabilities, probability, List.range_succ]
  rw [this]
  simp only [List.map, probability_third, probability_half, probability_last]

/-! ## The four format strings -/

theorem sprintf_add_prerouting (cfg : LBConfiguration) (p : F64) (dest : String) :
    Sprintf
      "iptables -t nat -A PREROUTING -p tcp -d %s --dport %s -m state --state NEW -m statistic --mode random --probability %f -j DNAT --to-destination %s:%s"
      [Arg.str cfg.SourceIP, Arg.str cfg.SourcePort, Arg.float p, Arg.str dest,
        Arg.str cfg.DestinationConfig.Port] =
      "iptables -t nat -A " ++ ruleSpec "PREROUTING" cfg p dest := by
  apply String.ext
  simp [ruleSpec, ruleMatch, Sprintf, sprintfAux]

theorem sprintf_add_output (cfg : LBConfiguration) (p : F64) (dest : String) :
    Sprintf
      "iptables -t nat -A OUTPUT -p tcp -d %s --dport %s -m state --state NEW -m statistic --mode random --probability %f -j DNAT --to-destination %s:%s"
      [Arg.str cfg.SourceIP, Arg.str cfg.SourcePort, Arg.float p, Arg.str dest,
        Arg.str cfg.DestinationConfig.Port] =
      "iptables -t nat -A " ++ ruleSpec "OUTPUT" cfg p dest := by
  apply String.ext
  simp [ruleSpec, ruleMatch, Sprintf, sprintfAux]

theorem sprintf_delete_prerouting (cfg : LBConfiguration) (p : F64) (dest : String) :
    Sprintf
      "iptables -t nat -D PREROUTING -p tcp -d %s --dport %s -m state --state NEW -m statistic --mode random --probability %f -j DNAT --to-destination %s:%s"
      [Arg.str cfg.SourceIP, Arg.str cfg.SourcePort, Arg.float p, Arg.str dest,
        Arg.str cfg.DestinationConfig.Port] =
      "iptables -t nat -D " ++ ruleSpec "PREROUTING" cfg p dest := by
  apply String.ext
  simp [ruleSpec, ruleMatch, Sprintf, sprintfAux]

theorem sprintf_delete_output (cfg : LBConfiguration) (p : F64) (dest : String) :
    Sprintf
      "iptables -t nat -D OUTPUT -p tcp -d %s --dport %s -m state --state NEW -m statistic --mode random --probability %f -j DNAT --to-destination %s:%s"
      [Arg.str cfg.SourceIP, Arg.str cfg.SourcePort, Arg.float p, Arg.str dest,
        Arg.str cfg.DestinationConfig.Port] =
      "iptables -t nat -D " ++ ruleSpec "OUTPUT" cfg p dest := by
  apply String.ext
  simp [ruleSpec, ruleMatch, Sprintf, sprintfAux]

/-! ## The loops run their commands in order and stop at the first failure -/

theorem addIteration_eq (sh : Shell) (cfg : LBConfiguration) (i : Nat) (w : World) :
    addIteration sh cfg.SourceIP cfg.SourcePort cfg.DestinationConfig.IPAddresses
        cfg.DestinationConfig.Port cfg.DestinationConfig.IPAddresses.length i w =
      match executeShellCommand sh (installCommand cfg "PREROUTING" i) w with
      | (w1, some err) => (logMessage "Error adding prerouting filter on DNAT." w1, some err)
      | (w1, none) =>
        match executeShellCommand sh (installCommand cfg "OUTPUT" i) w1 with
        | (w2, some err) =>
          (logMessage "Error adding output filter on DNAT."
            (logMessage (Sprintf "Added a filter %v" [Arg.str (installCommand cfg "OUTPUT" i)])
              w2), some err)
        | (w2, none) =>
          (logMessage (Sprintf "Added a filter %v" [Arg.str (installCommand cfg "OUTPUT" i)])
            w2, none) := by
  simp only [addIteration, sprintf_add_prerouting, sprintf_add_output, installCommand,
    probability, executeShellCommand]
  cases sh w.issued ("iptables -t nat -A " ++ ruleSpec "PREROUTING" cfg
    (F64.div F64.one (float64 (cfg.DestinationConfig.IPAddresses.length - i)))
    (cfg.DestinationConfig.IPAddresses.getD i "")) with
  | some e => rfl
  | none =>
    simp only []
    cases sh _ _ <;> rfl

theorem deleteIteration_eq (sh : Shell) (cfg : LBConfiguration) (i : Nat) (w : World) :
    deleteIteration sh cfg.SourceIP cfg.SourcePort cfg.DestinationConfig.IPAddresses
        cfg.DestinationConfig.Port cfg.DestinationConfig.IPAddresses.length i w =
      match executeShellCommand sh (uninstallCommand cfg "PREROUTING" i) w with
      | (w1, some err) => (logMessage "Error adding prerouting filter on DNAT." w1, some err)
      | (w1, none) =>
        match executeShellCommand sh (uninstallCommand cfg "OUTPUT" i) w1 with
        | (w2, some err) => (logMessage "Error deleting output filter on DNAT." w2, some err)
        | (w2, none) => (w2, none) := by
  simp only [deleteIteration, sprintf_delete_prerouting, sprintf_delete_output,
    uninstallCommand, probability]

theorem addIteration_run (sh : Shell) (cfg : LBConfiguration) (i : Nat) (w : World) :
    ((addIteration sh cfg.SourceIP cfg.SourcePort cfg.DestinationConfig.IPAddresses
        cfg.DestinationConfig.Port cfg.DestinationConfig.IPAddresses.length i w).1.issued,
      (addIteration sh cfg.SourceIP cfg.SourcePort cfg.DestinationConfig.IPAddresses
        cfg.DestinationConfig.Port cfg.DestinationConfig.IPAddresses.length i w).2) =
      runSeq sh [installCommand cfg "PREROUTING" i, installCommand cfg "OUTPUT" i] w.issued := by
  rw [addIteration_eq]
  cases h1 : sh w.issued (installCommand cfg "PREROUTING" i) with
  | some e => simp [executeShellCommand, runSeq, logMessage, h1]
  | none =>
    cases h2 : sh (w.issued ++ [installCommand cfg "PREROUTING" i])
        (installCommand cfg "OUTPUT" i) with
    | some e => simp [executeShellCommand, runSeq, logMessage, h1, h2]
    | none => simp [executeShellCommand, runSeq, logMessage, h1, h2]

theorem deleteIteration_run (sh : Shell) (cfg : LBConfiguration) (i : Nat) (w : World) :
    ((deleteIteration sh cfg.SourceIP cfg.SourcePort cfg.DestinationConfig.IPAddresses
        cfg.DestinationConfig.Port cfg.DestinationConfig.IPAddresses.length i w).1.issued,
      (deleteIteration sh cfg.SourceIP cfg.SourcePort cfg.DestinationConfig.IPAddresses
        cfg.DestinationConfig.Port cfg.DestinationConfig.IPAddresses.length i w).2) =
      runSeq sh [uninstallCommand cfg "PREROUTING" i, uninstallCommand cfg "OUTPUT" i]
        w.issued := by
  rw [deleteIteration_eq]
  cases h1 : sh w.issued (uninstallCommand cfg "PREROUTING" i) with
  | some e => simp [executeShellCommand, runSeq, logMessage, h1]
  | none =>
    cases h2 : sh (w.issued ++ [uninstallCommand cfg "PREROUTING" i])
        (uninstallCommand cfg "OUTPUT" i) with
    | some e => simp [executeShellCommand, runSeq, logMessage, h1, h2]
    | none => simp [executeShellCommand, runSeq, logMessage, h1, h2]

theorem forLoop_run (sh : Shell) (body : Nat → World → World × Option GoError)
    (pre out : Nat → String)
    (hbody : ∀ i w, ((body i w).1.issued, (body i w).2) = runSeq sh [pre i, out i] w.issued) :
    ∀ n i w, ((forLoop body n i w).1.issued, (forLoop body n i w).2) =
      runSeq sh (rulePairs pre out n i) w.issued := by
  intro n
  induction n with
  | zero => intro i w; rfl
  | succ n ih =>
    intro i w
    have hb := hbody i w
    have hrec := ih (i + 1) (body i w).1
    rcases hres : body i w with ⟨w1, _ | err⟩ <;> rw [hres] at hb hrec <;>
      simp only [forLoop, rulePairs, hres] <;>
      cases h1 : sh w.issued (pre i) <;>
      cases h2 : sh (w.issued ++ [pre i]) (out i) <;>
      simp_all [runSeq]

theorem AddPreroutingFilters_run (sh : Shell) (cfg : LBConfiguration) (w : World) :
    ((AddPreroutingFilters sh cfg w).1.issued, (AddPreroutingFilters sh cfg w).2) =
      runSeq sh (rulePairs (installCommand cfg "PREROUTING") (installCommand cfg "OUTPUT")
        cfg.DestinationConfig.IPAddresses.length 0) w.issued := by
  rw [← forLoop_run sh _ _ _ (addIteration_run sh cfg)]
  rcases hres : forLoop (addIteration sh cfg.SourceIP cfg.SourcePort
      cfg.DestinationConfig.IPAddresses cfg.DestinationConfig.Port
      cfg.DestinationConfig.IPAddresses.length) cfg.DestinationConfig.IPAddresses.length 0 w
    with ⟨w1, _ | err⟩ <;> simp [AddPreroutingFilters, hres, logMessage]

theorem DeletePreroutingFilters_run (sh : Shell) (cfg : LBConfiguration) (w : World) :
    ((DeletePreroutingFilters sh cfg w).1.issued, (DeletePreroutingFilters sh cfg w).2) =
      runSeq sh (rulePairs (uninstallCommand cfg "PREROUTING") (uninstallCommand cfg "OUTPUT")
        cfg.DestinationConfig.IPAddresses.length 0) w.issued := by
  rw [← forLoop_run sh _ _ _ (deleteIteration_run sh cfg)]
  rcases hres : forLoop (deleteIteration sh cfg.SourceIP cfg.SourcePort
      cfg.DestinationConfig.IPAddresses cfg.DestinationConfig.Port
      cfg.DestinationConfig.IPAddresses.length) cfg.DestinationConfig.IPAddresses.length 0 w
    with ⟨w1, _ | err⟩ <;> simp [DeletePreroutingFilters, hres, logMessage]

theorem runSeq_take (sh : Shell) : ∀ (cmds hist : List String),
    ∃ k, (runSeq sh cmds hist).1 = hist ++ cmds.take k := by
  intro cmds
  induction cmds with
  | nil => intro hist; exact ⟨0, by simp [runSeq]⟩
  | cons c cs ih =>
    intro hist
    cases h : sh hist c with
    | some e => exact ⟨1, by simp [runSeq, h]⟩
    | none =>
      obtain ⟨k, hk⟩ := ih (hist ++ [c])
      exact ⟨k + 1, by simp [runSeq, h, hk]⟩

theorem runSeq_ok (sh : Shell) : ∀ (cmds hist : List String),
    (∀ j, j < cmds.length → sh (hist ++ cmds.take j) (cmds.getD j "") = none) →
    runSeq sh cmds hist = (hist ++ cmds, none) := by
  intro cmds
  induction cmds with
  | nil => intro hist _; simp [runSeq]
  | cons c cs ih =>
    intro hist h
    have h0 := h 0 (by simp)
    simp only [List.take_zero, List.append_nil, List.getD_cons_zero] at h0
    have hrest := ih (hist ++ [c]) (fun j hj => by
      have := h (j + 1) (by simpa using hj)
      simpa using this)
    simp [runSeq, h0, hrest]

theorem runSeq_fail (sh : Shell) : ∀ (cmds hist : List String) (k : Nat) (e : GoError),
    k < cmds.length →
    (∀ j, j < k → sh (hist ++ cmds.take j) (cmds.getD j "") = none) →
    sh (hist ++ cmds.take k) (cmds.getD k "") = some e →
    runSeq sh cmds hist = (hist ++ cmds.take (k + 1), some e) := by
  intro cmds
  induction cmds with
  | nil => intro hist k e hk; simp at hk
  | cons c cs ih =>
    intro hist k e hk hok hfail
    cases k with
    | zero =>
      simp only [List.take_zero, List.append_nil, List.getD_cons_zero] at hfail
      simp [runSeq, hfail]
    | succ k =>
      have h0 := hok 0 (by omega)
      simp only [List.take_zero, List.append_nil, List.getD_cons_zero] at h0
      have hrest := ih (hist ++ [c]) k e (by simpa using hk)
        (fun j hj => by
          have := hok (j + 1) (by omega)
          simpa using this)
        (by simpa using hfail)
      simp [runSeq, h0, hrest]

theorem rulePairs_length (pre out : Nat → String) :
    ∀ n i, (rulePairs pre out n i).length = 2 * n := by
  intro n
  induction n with
  | zero => intro i; rfl
  | succ n ih => intro i; simp [rulePairs, ih]; omega

theorem rulePairs_even (pre out : Nat → String) :
    ∀ n i j, j < n → (rulePairs pre out n i)[2 * j]? = some (pre (i + j)) := by
  intro n
  induction n with
  | zero => intro i j hj; omega
  | succ n ih =>
    intro i j hj
    cases j with
    | zero => simp [rulePairs]
    | succ j =>
      have := ih (i + 1) j (by omega)
      have e : 2 * (j + 1) = 2 * j + 1 + 1 := by ring
      simp only [rulePairs, e, List.getElem?_cons_succ]
      rw [this]; congr 2; omega

theorem rulePairs_odd (pre out : Nat → String) :
    ∀ n i j, j < n → (rulePairs pre out n i)[2 * j + 1]? = some (out (i + j)) := by
  intro n
  induction n with
  | zero => intro i j hj; omega
  | succ n ih =>
    intro i j hj
    cases j with
    | zero => simp [rulePairs]
    | succ j =>
      have := ih (i + 1) j (by omega)
      have e : 2 * (j + 1) + 1 = (2 * j + 1) + 1 + 1 := by ring
      simp only [rulePairs, e, List.getElem?_cons_succ]
      rw [this]; congr 2; omega

theorem mem_rulePairs (pre out : Nat → String) (c : String) :
    ∀ n i, c ∈ rulePairs pre out n i → ∃ j, c = pre j ∨ c = out j := by
  intro n
  induction n with
  | zero => intro i h; simp [rulePairs] at h
  | succ n ih =>
    intro i h
    simp only [rulePairs, List.mem_cons] at h
    rcases h with h | h | h
    · exact ⟨i, Or.inl h⟩
    · exact ⟨i, Or.inr h⟩
    · exact ih (i + 1) h

theorem fullInstall_eq (cfg : LBConfiguration) :
    fullInstall cfg = rulePairs (installCommand cfg "PREROUTING") (installCommand cfg "OUTPUT")
      cfg.DestinationConfig.IPAddresses.length 0 := by
  have h := AddPreroutingFilters_run alwaysOk cfg World.start
  rw [runSeq_ok alwaysOk _ _ (fun _ _ => rfl)] at h
  have := congrArg Prod.fst h
  simpa [fullInstall, World.start] using this

theorem fullUninstall_eq (cfg : LBConfiguration) :
    fullUninstall cfg = rulePairs (uninstallCommand cfg "PREROUTING") (uninstallCommand cfg "OUTPUT")
      cfg.DestinationConfig.IPAddresses.length 0 := by
  have h := DeletePreroutingFilters_run alwaysOk cfg World.start
  rw [runSeq_ok alwaysOk _ _ (fun _ _ => rfl)] at h
  have := congrArg Prod.fst h
  simpa [fullUninstall, World.start] using this

theorem add_ne_delete (r r1 : String) :
    "iptables -t nat -A " ++ r ≠ "iptables -t nat -D " ++ r1 := by
  intro h
  have := congrArg String.data h
  simp at this


theorem fullInstall_length (cfg : LBConfiguration) :
    (fullInstall cfg).length = 2 * cfg.DestinationConfig.IPAddresses.length := by
  rw [fullInstall_eq, rulePairs_length]

theorem fullUninstall_length (cfg : LBConfiguration) :
    (fullUninstall cfg).length = 2 * cfg.DestinationConfig.IPAddresses.length := by
  rw [fullUninstall_eq, rulePairs_length]

theorem add_success (sh : Shell) (cfg : LBConfiguration)
    (h : SucceedsOn sh (fullInstall cfg)) :
    (AddPreroutingFilters sh cfg World.start).1.issued = fullInstall cfg ∧
      (AddPreroutingFilters sh cfg World.start).2 = none := by
  have hr := AddPreroutingFilters_run sh cfg World.start
  rw [← fullInstall_eq, runSeq_ok sh _ _ (by simpa [World.start, SucceedsOn] using h)] at hr
  simpa [World.start] using hr

theorem delete_success (sh : Shell) (cfg : LBConfiguration)
    (h : SucceedsOn sh (fullUninstall cfg)) :
    (DeletePreroutingFilters sh cfg World.start).1.issued = fullUninstall cfg ∧
      (DeletePreroutingFilters sh cfg World.start).2 = none := by
  have hr := DeletePreroutingFilters_run sh cfg World.start
  rw [← fullUninstall_eq, runSeq_ok sh _ _ (by simpa [World.start, SucceedsOn] using h)] at hr
  simpa [World.start] using hr

theorem add_failure (sh : Shell) (cfg : LBConfiguration) (k : Nat) (e : GoError)
    (hk1 : 1 ≤ k) (hk2 : k ≤ 2 * cfg.DestinationConfig.IPAddresses.length)
    (h : FailsFirstAt sh (fullInstall cfg) k e) :
    (AddPreroutingFilters sh cfg World.start).1.issued = (fullInstall cfg).take k ∧
      (AddPreroutingFilters sh cfg World.start).2 = some e := by
  have hr := AddPreroutingFilters_run sh cfg World.start
  rw [← fullInstall_eq, runSeq_fail sh _ _ (k - 1) e
    (by rw [fullInstall_length]; omega)
    (by simpa [World.start] using h.1)
    (by simpa [World.start] using h.2)] at hr
  have e1 : k - 1 + 1 = k := by omega
  simpa [World.start, e1] using hr

theorem delete_failure (sh : Shell) (cfg : LBConfiguration) (k : Nat) (e : GoError)
    (hk1 : 1 ≤ k) (hk2 : k ≤ 2 * cfg.DestinationConfig.IPAddresses.length)
    (h : FailsFirstAt sh (fullUninstall cfg) k e) :
    (DeletePreroutingFilters sh cfg World.start).1.issued = (fullUninstall cfg).take k ∧
      (DeletePreroutingFilters sh cfg World.start).2 = some e := by
  have hr := DeletePreroutingFilters_run sh cfg World.start
  rw [← fullUninstall_eq, runSeq_fail sh _ _ (k - 1) e
    (by rw [fullUninstall_length]; omega)
    (by simpa [World.start] using h.1)
    (by simpa [World.start] using h.2)] at hr
  have e1 : k - 1 + 1 = k := by omega
  simpa [World.start, e1] using hr

theorem succeedsOn_of_always (sh : Shell) (cmds : List String)
    (hsh : ∀ hist c, sh hist c = none) : SucceedsOn sh cmds :=
  fun _ _ => hsh _ _

theorem fullInstall_prerouting (cfg : LBConfiguration) (i : Nat)
    (hi : i < cfg.DestinationConfig.IPAddresses.length) :
    (fullInstall cfg)[2 * i]? = some (installCommand cfg "PREROUTING" i) := by
  rw [fullInstall_eq, rulePairs_even _ _ _ _ _ hi, Nat.zero_add]

theorem fullInstall_output (cfg : LBConfiguration) (i : Nat)
    (hi : i < cfg.DestinationConfig.IPAddresses.length) :
    (fullInstall cfg)[2 * i + 1]? = some (installCommand cfg "OUTPUT" i) := by
  rw [fullInstall_eq, rulePairs_odd _ _ _ _ _ hi, Nat.zero_add]

theorem fullUninstall_prerouting (cfg : LBConfiguration) (i : Nat)
    (hi : i < cfg.DestinationConfig.IPAddresses.length) :
    (fullUninstall cfg)[2 * i]? = some (uninstallCommand cfg "PREROUTING" i) := by
  rw [fullUninstall_eq, rulePairs_even _ _ _ _ _ hi, Nat.zero_add]

theorem fullUninstall_output (cfg : LBConfiguration) (i : Nat)
    (hi : i < cfg.DestinationConfig.IPAddresses.length) :
    (fullUninstall cfg)[2 * i + 1]? = some (uninstallCommand cfg "OUTPUT" i) := by
  rw [fullUninstall_eq, rulePairs_odd _ _ _ _ _ hi, Nat.zero_add]

theorem fullInstall_all_add (cfg : LBConfiguration) (c : String) (hc : c ∈ fullInstall cfg) :
    ∃ rest, c = "iptables -t nat -A " ++ rest := by
  rw [fullInstall_eq] at hc
  obtain ⟨j, h | h⟩ := mem_rulePairs _ _ c _ _ hc
  · exact ⟨_, h⟩
  · exact ⟨_, h⟩

theorem getD_eq_get (l : List String) (i : Nat) (hi : i < l.length) :
    l.getD i "" = l.get ⟨i, hi⟩ := by
  simp [List.getD_eq_getElem?_getD, List.getElem?_eq_getElem hi]

theorem issued_getElem_of_fullInstall (sh : Shell) (cfg : LBConfiguration) (j : Nat)
    (c : String) (h : (AddPreroutingFilters sh cfg World.start).1.issued[j]? = some c) :
    (fullInstall cfg)[j]? = some c := by
  have hr := congrArg Prod.fst (AddPreroutingFilters_run sh cfg World.start)
  obtain ⟨k, hk⟩ := runSeq_take sh (rulePairs (installCommand cfg "PREROUTING")
    (installCommand cfg "OUTPUT") cfg.DestinationConfig.IPAddresses.length 0) World.start.issued
  simp only [] at hr
  rw [hr, hk, ← fullInstall_eq] at h
  simp only [World.start, List.nil_append, List.getElem?_take] at h
  split_ifs at h
  exact h

/-! ## Claims on the probabilities -/

theorem cascade_prod (N : Nat) (hN : 0 < N) : ∀ i, i ≤ N →
    ∏ j in Finset.range i, (1 - idealProbability N j) = ((N - i : ℕ) : ℚ) / N := by
  have hN0 : (N : ℚ) ≠ 0 := by exact_mod_cast hN.ne.symm
  intro i
  induction i with
  | zero => intro _; simp [hN0]
  | succ i ih =>
    intro hi
    have hk : ((N - i : ℕ) : ℚ) ≠ 0 := by exact_mod_cast (by omega : N - i ≠ 0)
    have hs : ((N - (i + 1) : ℕ) : ℚ) = ((N - i : ℕ) : ℚ) - 1 := by
      have : N - (i + 1) = (N - i) - 1 := by omega
      rw [this, Nat.cast_sub (by omega)]; simp
    rw [Finset.prod_range_succ, ih (by omega), idealProbability, hs]
    field_simp
    ring

theorem matchChance_ideal (N i : Nat) (hi : i < N) :
    matchChance (idealProbability N) i = 1 / N := by
  have hN : (N : ℚ) ≠ 0 := by exact_mod_cast (by omega : N ≠ 0)
  have hk : ((N - i : ℕ) : ℚ) ≠ 0 := by exact_mod_cast (by omega : N - i ≠ 0)
  rw [matchChance, cascade_prod N (by omega) i hi.le, idealProbability]
  field_simp
  ring

/-- Claim C1: for a destination list of length `N ≥ 1` the loops of `AddPreroutingFilters` and
`DeletePreroutingFilters` compute `N` probabilities, in destination order, the `i`-th being
`1 / float64(N - i)`. As a float64 this is `1 / (N - i)`: it is what rounding the exact
quotient gives, no float64 is nearer to `1 / (N - i)`, and it is within a relative `2 ^ -53`
of it (for `N < 2 ^ 53`, which covers every length a Go slice can have). It is the
probability printed next to `destinations[i]` in the two `-A` and the two `-D` commands of
iteration `i`. The last value is exactly `1.0`; for `N = 1` the only value is `1.0`; for
`N = 3` the values are the float64 `1/3` (which is `6004799503160661 / 2 ^ 54`), exactly
`1/2` and exactly `1.0`, printed as `0.333333`, `0.500000`, `1.000000`. -/
theorem probabilities_cascade (cfg : LBConfiguration) (N : Nat)
    (hlen : cfg.DestinationConfig.IPAddresses.length = N) (hN : 1 ≤ N) :
    (probabilities N).length = N ∧
    (∀ i, i < N → (probabilities N)[i]? = some (F64.div F64.one (float64 (N - i)))) ∧
    (∀ i, i < N → N < 2 ^ 53 →
      F64.div F64.one (float64 (N - i)) = roundToF64 1 (N - i) ∧
      IsFloat64 (F64.div F64.one (float64 (N - i))).toRat ∧
      (∀ y, IsFloat64 y →
        |(F64.div F64.one (float64 (N - i))).toRat - 1 / ((N - i : ℕ) : ℚ)| ≤
          |y - 1 / ((N - i : ℕ) : ℚ)|) ∧
      |(F64.div F64.one (float64 (N - i))).toRat - 1 / ((N - i : ℕ) : ℚ)| ≤
        1 / ((N - i : ℕ) : ℚ) / 2 ^ 53) ∧
    (∀ i (hi : i < N), ∃ p, (probabilities N)[i]? = some p ∧
      (fullInstall cfg)[2 * i]? = some ("iptables -t nat -A " ++
        ruleSpec "PREROUTING" cfg p (cfg.DestinationConfig.IPAddresses.get ⟨i, hlen ▸ hi⟩)) ∧
      (fullInstall cfg)[2 * i + 1]? = some ("iptables -t nat -A " ++
        ruleSpec "OUTPUT" cfg p (cfg.DestinationConfig.IPAddresses.get ⟨i, hlen ▸ hi⟩)) ∧
      (fullUninstall cfg)[2 * i]? = some ("iptables -t nat -D " ++
        ruleSpec "PREROUTING" cfg p (cfg.DestinationConfig.IPAddresses.get ⟨i, hlen ▸ hi⟩)) ∧
      (fullUninstall cfg)[2 * i + 1]? = some ("iptables -t nat -D " ++
        ruleSpec "OUTPUT" cfg p (cfg.DestinationConfig.IPAddresses.get ⟨i, hlen ▸ hi⟩))) ∧
    (probabilities N).getLast?.map F64.toRat = some 1 ∧
    probabilities 1 = [roundToF64 1 1] ∧
    (probabilities 1).map F64.toRat = [1] ∧
    probabilities 3 = [roundToF64 1 3, roundToF64 1 2, roundToF64 1 1] ∧
    (probabilities 3).map F64.toRat = [6004799503160661 / 18014398509481984, 1 / 2, 1] ∧
    (probabilities 3).map fmtFloat = ["0.333333", "0.500000", "1.000000"] := by
  refine ⟨by simp [probabilities], probabilities_getElem N, fun i hi hlt => ?_,
    fun i hi => ⟨_, probabilities_getElem N i hi, ?_⟩, probabilities_last N hN, by decide, ?_,
    by decide, probabilities_three, by decide⟩
  · exact ⟨F64_div_one_float64 (N - i) (by omega) (by omega),
      probability_isFloat64 N i hi hlt, probability_nearest N i hi hlt,
      probability_err N i hi hlt⟩
  · subst hlen
    rw [fullInstall_prerouting cfg i hi, fullInstall_output cfg i hi,
      fullUninstall_prerouting cfg i hi, fullUninstall_output cfg i hi, installCommand,
      installCommand, uninstallCommand, uninstallCommand, getD_eq_get _ i hi]
    exact ⟨rfl, rfl, rfl, rfl⟩
  · have : probabilities 1 = [F64.div F64.one (float64 1)] := rfl
    rw [this]
    simp only [List.map, probability_last]

/-- For `cfgTwo` the two probabilities are exactly `1/2` and `1.0`. -/
theorem probabilities_cascade_witness :
    (cfgTwo.DestinationConfig.IPAddresses.length = 2 ∧ 1 ≤ 2) ∧
    (probabilities 2).length = 2 ∧
    (probabilities 2)[0]? = some (F64.div F64.one (float64 (2 - 0))) ∧
    (probabilities 2).getLast?.map F64.toRat = some 1 :=
  have h := probabilities_cascade cfgTwo 2 rfl (by decide)
  ⟨⟨rfl, by decide⟩, h.1, h.2.1 0 (by decide), h.2.2.2.2.1⟩

/-- Claim C6: for `N ≥ 1` and `i < N`, with the planned probabilities `p j = 1 / (N - j)` taken
as exact rationals, the chance that rules `0, …, i - 1` reject a packet and rule `i` accepts
it is exactly `1 / N`; these `N` chances sum to `1`, so every packet is matched by some
rule. The float64 values the code computes are within a relative `2 ^ -53` of these planned
probabilities. -/
theorem cascade_is_uniform (N i : Nat) (hN : 1 ≤ N) (hi : i < N) :
    (∀ j, j < N → idealProbability N j = 1 / ((N : ℚ) - j)) ∧
    (∀ j, j < N → N < 2 ^ 53 →
      |(probability N j).toRat - idealProbability N j| ≤ idealProbability N j / 2 ^ 53) ∧
    matchChance (idealProbability N) i = 1 / N ∧
    ∑ j in Finset.range N, matchChance (idealProbability N) j = 1 := by
  have hN0 : (N : ℚ) ≠ 0 := by exact_mod_cast (by omega : N ≠ 0)
  refine ⟨fun j hj => ?_, fun j hj hlt => probability_err N j hj hlt,
    matchChance_ideal N i hi, ?_⟩
  · rw [idealProbability, Nat.cast_sub hj.le]
  · rw [Finset.sum_congr rfl (fun j hj => matchChance_ideal N j (Finset.mem_range.mp hj))]
    simp [hN0]

/-- With three backends the second rule takes a packet with chance `(1 - 1/3) * 1/2 = 1/3`. -/
theorem cascade_is_uniform_witness :
    (1 ≤ 3 ∧ 1 < 3) ∧ matchChance (idealProbability 3) 1 = 1 / 3 ∧
    ∑ j in Finset.range 3, matchChance (idealProbability 3) j = 1 :=
  have h := cascade_is_uniform 3 1 (by decide) (by decide)
  ⟨⟨by decide, by decide⟩, by simpa using h.2.2.1, h.2.2.2⟩

/-! ## Claims on the command sequences -/

/-- Claim C2: with `N` destinations and a shell that succeeds on every invocation,
`AddPreroutingFilters` returns no error and runs exactly `2 * N` commands; the commands at
positions `2 * i` and `2 * i + 1` are the PREROUTING rule and the OUTPUT rule for
`destinations[i]`, so each position of the destination list, duplicates included, is covered
exactly twice and in input order. -/
theorem AddPreroutingFilters_two_rules_per_destination (sh : Shell) (cfg : LBConfiguration)
    (hsh : ∀ hist c, sh hist c = none) :
    (AddPreroutingFilters sh cfg World.start).2 = none ∧
    (AddPreroutingFilters sh cfg World.start).1.issued.length =
      2 * cfg.DestinationConfig.IPAddresses.length ∧
    ∀ i (hi : i < cfg.DestinationConfig.IPAddresses.length),
      (AddPreroutingFilters sh cfg World.start).1.issued[2 * i]? =
        some ("iptables -t nat -A " ++
          ruleSpec "PREROUTING" cfg
            (probability cfg.DestinationConfig.IPAddresses.length i)
            (cfg.DestinationConfig.IPAddresses.get ⟨i, hi⟩)) ∧
      (AddPreroutingFilters sh cfg World.start).1.issued[2 * i + 1]? =
        some ("iptables -t nat -A " ++
          ruleSpec "OUTPUT" cfg
            (probability cfg.DestinationConfig.IPAddresses.length i)
            (cfg.DestinationConfig.IPAddresses.get ⟨i, hi⟩)) := by
  obtain ⟨h1, h2⟩ := add_success sh cfg (succeedsOn_of_always sh _ hsh)
  refine ⟨h2, by rw [h1, fullInstall_length], fun i hi => ?_⟩
  rw [h1, fullInstall_prerouting cfg i hi, fullInstall_output cfg i hi,
    installCommand, installCommand, getD_eq_get _ i hi]
  exact ⟨rfl, rfl⟩

set_option maxRecDepth 100000 in
/-- A successful install of `cfgTwo` runs four commands, the first of them the PREROUTING
rule for the first backend with probability text `0.500000`. -/
theorem AddPreroutingFilters_two_rules_per_destination_witness :
    (∀ hist c, alwaysOk hist c = none) ∧
    (AddPreroutingFilters alwaysOk cfgTwo World.start).2 = none ∧
    (AddPreroutingFilters alwaysOk cfgTwo World.start).1.issued.length = 4 ∧
    (AddPreroutingFilters alwaysOk cfgTwo World.start).1.issued[0]? =
      some "iptables -t nat -A PREROUTING -p tcp -d 10.0.0.1 --dport 80 -m state --state NEW -m statistic --mode random --probability 0.500000 -j DNAT --to-destination 10.0.0.2:8080" :=
  have h := AddPreroutingFilters_two_rules_per_destination alwaysOk cfgTwo (fun _ _ => rfl)
  ⟨fun _ _ => rfl, h.1, h.2.1, (h.2.2 0 (by decide)).1.trans (by decide)⟩


/-- Claim C3: with a shell that always succeeds, `DeletePreroutingFilters` runs as many
commands as `AddPreroutingFilters`, and at every position `j` the two commands are
`iptables -t nat -A rest` and `iptables -t nat -D rest` for one and the same `rest` (chain,
match criteria, probability text and DNAT target): they differ in the action flag only. -/
theorem DeletePreroutingFilters_mirrors_install (sh : Shell) (cfg : LBConfiguration)
    (hsh : ∀ hist c, sh hist c = none) :
    (DeletePreroutingFilters sh cfg World.start).1.issued.length =
      (AddPreroutingFilters sh cfg World.start).1.issued.length ∧
    ∀ j, j < (AddPreroutingFilters sh cfg World.start).1.issued.length →
      (AddPreroutingFilters sh cfg World.start).1.issued[j]? =
        some ("iptables -t nat -A " ++
          ruleSpec (if j % 2 = 0 then "PREROUTING" else "OUTPUT") cfg
            (probability cfg.DestinationConfig.IPAddresses.length (j / 2))
            (cfg.DestinationConfig.IPAddresses.getD (j / 2) "")) ∧
      (DeletePreroutingFilters sh cfg World.start).1.issued[j]? =
        some ("iptables -t nat -D " ++
          ruleSpec (if j % 2 = 0 then "PREROUTING" else "OUTPUT") cfg
            (probability cfg.DestinationConfig.IPAddresses.length (j / 2))
            (cfg.DestinationConfig.IPAddresses.getD (j / 2) "")) := by
  obtain ⟨ha, -⟩ := add_success sh cfg (succeedsOn_of_always sh _ hsh)
  obtain ⟨hd, -⟩ := delete_success sh cfg (succeedsOn_of_always sh _ hsh)
  rw [ha, hd, fullInstall_length, fullUninstall_length]
  refine ⟨rfl, fun j hj => ?_⟩
  have hi : j / 2 < cfg.DestinationConfig.IPAddresses.length := by omega
  rcases Nat.mod_two_eq_zero_or_one j with h | h
  · have e : j = 2 * (j / 2) := by omega
    rw [if_pos h]
    conv => lhs; lhs; rw [e]
    conv => rhs; lhs; rw [e]
    rw [fullInstall_prerouting cfg _ hi, fullUninstall_prerouting cfg _ hi,
      installCommand, uninstallCommand]
    exact ⟨rfl, rfl⟩
  · have e : j = 2 * (j / 2) + 1 := by omega
    rw [if_neg (by omega)]
    conv => lhs; lhs; rw [e]
    conv => rhs; lhs; rw [e]
    rw [fullInstall_output cfg _ hi, fullUninstall_output cfg _ hi,
      installCommand, uninstallCommand]
    exact ⟨rfl, rfl⟩

set_option maxRecDepth 100000 in
/-- For `cfgTwo` the fourth command of the install and of the uninstall are the OUTPUT rule
for the second backend, with `-A` and with `-D`. -/
theorem DeletePreroutingFilters_mirrors_install_witness :
    (∀ hist c, alwaysOk hist c = none) ∧
    (AddPreroutingFilters alwaysOk cfgTwo World.start).1.issued[3]? =
      some "iptables -t nat -A OUTPUT -p tcp -d 10.0.0.1 --dport 80 -m state --state NEW -m statistic --mode random --probability 1.000000 -j DNAT --to-destination 10.0.0.3:8080" ∧
    (DeletePreroutingFilters alwaysOk cfgTwo World.start).1.issued[3]? =
      some "iptables -t nat -D OUTPUT -p tcp -d 10.0.0.1 --dport 80 -m state --state NEW -m statistic --mode random --probability 1.000000 -j DNAT --to-destination 10.0.0.3:8080" :=
  have h := (DeletePreroutingFilters_mirrors_install alwaysOk cfgTwo (fun _ _ => rfl)).2 3
    (by decide)
  ⟨fun _ _ => rfl, h.1.trans (by decide), h.2.trans (by decide)⟩

/-- Claim C4: with `N` destinations and `1 ≤ k ≤ 2 * N`, if the shell succeeds on invocations
`1, …, k - 1` and fails on the `k`-th with error `e`, then `AddPreroutingFilters` makes exactly
`k` invocations, which are the first `k` commands of a fully successful install; each of them
is an `-A` command and none a `-D` command (no rollback); and the value returned is `e`. -/
theorem AddPreroutingFilters_stops_at_first_failure (sh : Shell) (cfg : LBConfiguration)
    (k : Nat) (e : GoError) (hk1 : 1 ≤ k)
    (hk2 : k ≤ 2 * cfg.DestinationConfig.IPAddresses.length)
    (hfail : FailsFirstAt sh (fullInstall cfg) k e) :
    (AddPreroutingFilters sh cfg World.start).1.issued.length = k ∧
    (AddPreroutingFilters sh cfg World.start).1.issued = (fullInstall cfg).take k ∧
    (∀ c ∈ (AddPreroutingFilters sh cfg World.start).1.issued,
      (∃ rest, c = "iptables -t nat -A " ++ rest) ∧
        ∀ rest, c ≠ "iptables -t nat -D " ++ rest) ∧
    (AddPreroutingFilters sh cfg World.start).2 = some e := by
  obtain ⟨h1, h2⟩ := add_failure sh cfg k e hk1 hk2 hfail
  refine ⟨?_, h1, ?_, h2⟩
  · rw [h1, List.length_take, fullInstall_length]; omega
  · intro c hc
    rw [h1] at hc
    obtain ⟨rest, hrest⟩ := fullInstall_all_add cfg c (List.mem_of_mem_take hc)
    exact ⟨⟨rest, hrest⟩, fun r => hrest ▸ add_ne_delete rest r⟩

/-- On `cfgTwo`, a shell failing its third invocation stops the install after three of
the four commands. -/
theorem AddPreroutingFilters_stops_at_first_failure_witness :
    (1 ≤ 3 ∧ 3 ≤ 2 * cfgTwo.DestinationConfig.IPAddresses.length ∧
      FailsFirstAt (failAt 3) (fullInstall cfgTwo) 3 "exit status 1") ∧
    (AddPreroutingFilters (failAt 3) cfgTwo World.start).1.issued.length = 3 ∧
    (AddPreroutingFilters (failAt 3) cfgTwo World.start).2 = some "exit status 1" :=
  have h := AddPreroutingFilters_stops_at_first_failure (failAt 3) cfgTwo 3 "exit status 1"
    (by decide) (by decide) (by decide)
  ⟨⟨by decide, by decide, by decide⟩, h.1, h.2.2.2⟩

/-- Claim C5, as the code has it: for an empty destination list `AddPreroutingFilters` and
`DeletePreroutingFilters` run no command, log that they finished, and return `nil`, whatever
the shell would answer. -/
theorem empty_destinations_is_a_successful_no_op (sh : Shell) (cfg : LBConfiguration)
    (w : World) (hempty : cfg.DestinationConfig.IPAddresses = []) :
    AddPreroutingFilters sh cfg w =
      (logMessage "Finished adding filter rules to Load Balancer." w, none) ∧
    DeletePreroutingFilters sh cfg w =
      (logMessage "Finished deleting filter rules to Load Balancer." w, none) ∧
    (AddPreroutingFilters sh cfg w).1.issued = w.issued ∧
    (DeletePreroutingFilters sh cfg w).1.issued = w.issued := by
  simp [AddPreroutingFilters, DeletePreroutingFilters, hempty, forLoop, logMessage]

/-- On the configuration without backends nothing is run and `nil` is returned. -/
theorem empty_destinations_is_a_successful_no_op_witness :
    cfgNone.DestinationConfig.IPAddresses = [] ∧
    (AddPreroutingFilters alwaysFails cfgNone World.start).1.issued = [] :=
  ⟨rfl, (empty_destinations_is_a_successful_no_op alwaysFails cfgNone World.start rfl).2.2.1⟩

/-- Claim C5, refuted as stated: on a configuration whose destination list is empty, and
even with a shell on which every command would fail, `AddPreroutingFilters` and
`DeletePreroutingFilters` return `nil`, not an error. -/
theorem empty_destinations_return_nil :
    cfgNone.DestinationConfig.IPAddresses = [] ∧
    (AddPreroutingFilters alwaysFails cfgNone World.start).2 = none ∧
    (DeletePreroutingFilters alwaysFails cfgNone World.start).2 = none := by
  decide


/-- When the loop of `AddPreroutingFilters` returns an error, the last message logged names
the chain of the failed command: the PREROUTING message after an odd number of commands, the
OUTPUT message after an even number. -/
theorem addLoop_failure_log (sh : Shell) (cfg : LBConfiguration) :
    ∀ n i w w1 e, forLoop (addIteration sh cfg.SourceIP cfg.SourcePort
        cfg.DestinationConfig.IPAddresses cfg.DestinationConfig.Port
        cfg.DestinationConfig.IPAddresses.length) n i w = (w1, some e) →
      ∃ d, w1.issued.length = w.issued.length + d ∧
        w1.logged.getLast? = some (if d % 2 = 1 then "Error adding prerouting filter on DNAT."
          else "Error adding output filter on DNAT.") := by
  intro n
  induction n with
  | zero => intro i w w1 e h; simp [forLoop] at h
  | succ n ih =>
    intro i w w1 e h
    rw [forLoop, addIteration_eq] at h
    cases h1 : sh w.issued (installCommand cfg "PREROUTING" i) with
    | some e1 =>
      simp [executeShellCommand, logMessage, h1] at h
      obtain ⟨hw, -⟩ := h
      subst hw
      exact ⟨1, by simp, by simp⟩
    | none =>
      cases h2 : sh (w.issued ++ [installCommand cfg "PREROUTING" i])
          (installCommand cfg "OUTPUT" i) with
      | some e2 =>
        simp [executeShellCommand, logMessage, h1, h2] at h
        obtain ⟨hw, -⟩ := h
        subst hw
        exact ⟨2, by simp, by simp⟩
      | none =>
        simp only [executeShellCommand, logMessage, h1, h2] at h
        obtain ⟨d, hd1, hd2⟩ := ih _ _ _ _ h
        refine ⟨d + 2, ?_, ?_⟩
        · simp only [List.length_append, List.length_cons, List.length_nil] at hd1; omega
        · rw [hd2]; simp [Nat.add_mod]

/-- Claim C7, as the code has it: when the `k`-th invocation is the first to fail, the value
`AddPreroutingFilters` returns is the shell's own error `e`: it carries the underlying
diagnostic and neither the chain nor the index of the failed command, so that two runs
failing at different positions `k1` and `k2` with the same underlying error return equal
errors. Besides, the last message logged before returning is the PREROUTING error message
when `k1` is odd and the OUTPUT error message when it is even. -/
theorem AddPreroutingFilters_returns_the_shell_error_unwrapped (sh1 sh2 : Shell)
    (cfg : LBConfiguration) (k1 k2 : Nat) (e : GoError)
    (hk1 : 1 ≤ k1 ∧ k1 ≤ 2 * cfg.DestinationConfig.IPAddresses.length)
    (hk2 : 1 ≤ k2 ∧ k2 ≤ 2 * cfg.DestinationConfig.IPAddresses.length)
    (hfail1 : FailsFirstAt sh1 (fullInstall cfg) k1 e)
    (hfail2 : FailsFirstAt sh2 (fullInstall cfg) k2 e) :
    (AddPreroutingFilters sh1 cfg World.start).2 = some e ∧
    (AddPreroutingFilters sh2 cfg World.start).2 = some e ∧
    (AddPreroutingFilters sh1 cfg World.start).2 =
      (AddPreroutingFilters sh2 cfg World.start).2 ∧
    (AddPreroutingFilters sh1 cfg World.start).1.logged.getLast? =
      some (if k1 % 2 = 1 then "Error adding prerouting filter on DNAT."
        else "Error adding output filter on DNAT.") := by
  obtain ⟨ha1, hb1⟩ := add_failure sh1 cfg k1 e hk1.1 hk1.2 hfail1
  obtain ⟨-, hb2⟩ := add_failure sh2 cfg k2 e hk2.1 hk2.2 hfail2
  refine ⟨hb1, hb2, hb1.trans hb2.symm, ?_⟩
  have hlen : (AddPreroutingFilters sh1 cfg World.start).1.issued.length = k1 := by
    rw [ha1, List.length_take, fullInstall_length]; omega
  rcases hres : forLoop (addIteration sh1 cfg.SourceIP cfg.SourcePort
      cfg.DestinationConfig.IPAddresses cfg.DestinationConfig.Port
      cfg.DestinationConfig.IPAddresses.length) cfg.DestinationConfig.IPAddresses.length 0
    World.start with ⟨w1, _ | err⟩
  · simp [AddPreroutingFilters, hres] at hb1
  · obtain ⟨d, hd1, hd2⟩ := addLoop_failure_log sh1 cfg _ _ _ _ _ hres
    have hw : (AddPreroutingFilters sh1 cfg World.start).1 = w1 := by
      simp [AddPreroutingFilters, hres]
    rw [hw] at hlen ⊢
    have hd : d = k1 := by simpa [World.start, hlen] using hd1.symm
    rw [hd2, hd]

/-- On `cfgTwo`, failing the first invocation (PREROUTING, first backend) and failing the
fourth (OUTPUT, second backend) return the same error. -/
theorem AddPreroutingFilters_returns_the_shell_error_unwrapped_witness :
    (FailsFirstAt (failAt 1) (fullInstall cfgTwo) 1 "exit status 1" ∧
      FailsFirstAt (failAt 4) (fullInstall cfgTwo) 4 "exit status 1") ∧
    (AddPreroutingFilters (failAt 1) cfgTwo World.start).2 = some "exit status 1" ∧
    (AddPreroutingFilters (failAt 4) cfgTwo World.start).2 = some "exit status 1" :=
  have h := AddPreroutingFilters_returns_the_shell_error_unwrapped (failAt 1) (failAt 4)
    cfgTwo 1 4 "exit status 1" (by decide) (by decide) (by decide) (by decide)
  ⟨⟨by decide, by decide⟩, h.1, h.2.1⟩

/-- Claim C7, refuted as stated: on `cfgTwo`, with the one underlying error `exit status 1`
injected at invocation 1 (PREROUTING rule of the first backend) and at invocation 4 (OUTPUT
rule of the second backend), the two errors returned are not distinguishable: they are
equal. -/
theorem failure_position_is_not_in_the_returned_error :
    (AddPreroutingFilters (failAt 1) cfgTwo World.start).1.issued.length = 1 ∧
    (AddPreroutingFilters (failAt 4) cfgTwo World.start).1.issued.length = 4 ∧
    (AddPreroutingFilters (failAt 1) cfgTwo World.start).2 =
      (AddPreroutingFilters (failAt 4) cfgTwo World.start).2 := by
  decide

/-- Claim C8: for every destination index `i`, the two commands `AddPreroutingFilters` builds
for `destinations[i]` are one common text after `iptables -t nat -A PREROUTING` and after
`iptables -t nat -A OUTPUT`: a TCP rule matching destination `sourceIP`, destination port
`sourcePort`, state NEW, statistic random mode with the text of `1 / float64(N - i)` as
probability, and DNAT target `destinations[i]:destinationPort`. They are the commands at
positions `2 * i` and `2 * i + 1` of a successful install, and with any shell whatever is
run at these two positions is these two commands. -/
theorem add_rules_differ_only_in_chain (cfg : LBConfiguration) (i : Nat)
    (hi : i < cfg.DestinationConfig.IPAddresses.length) :
    ∃ tail : String,
      tail = " -p tcp -d " ++ cfg.SourceIP ++ " --dport " ++ cfg.SourcePort ++
        " -m state --state NEW -m statistic --mode random --probability " ++
        fmtFloat (F64.div F64.one (float64 (cfg.DestinationConfig.IPAddresses.length - i))) ++
        " -j DNAT --to-destination " ++ cfg.DestinationConfig.IPAddresses.get ⟨i, hi⟩ ++
        ":" ++ cfg.DestinationConfig.Port ∧
      (fullInstall cfg)[2 * i]? = some ("iptables -t nat -A PREROUTING" ++ tail) ∧
      (fullInstall cfg)[2 * i + 1]? = some ("iptables -t nat -A OUTPUT" ++ tail) ∧
      ∀ (sh : Shell) (c : String),
        ((AddPreroutingFilters sh cfg World.start).1.issued[2 * i]? = some c →
          c = "iptables -t nat -A PREROUTING" ++ tail) ∧
        ((AddPreroutingFilters sh cfg World.start).1.issued[2 * i + 1]? = some c →
          c = "iptables -t nat -A OUTPUT" ++ tail) := by
  have hpre : installCommand cfg "PREROUTING" i = "iptables -t nat -A PREROUTING" ++
      (" -p tcp -d " ++ cfg.SourceIP ++ " --dport " ++ cfg.SourcePort ++
        " -m state --state NEW -m statistic --mode random --probability " ++
        fmtFloat (F64.div F64.one (float64 (cfg.DestinationConfig.IPAddresses.length - i))) ++
        " -j DNAT --to-destination " ++ cfg.DestinationConfig.IPAddresses.get ⟨i, hi⟩ ++
        ":" ++ cfg.DestinationConfig.Port) := by
    rw [installCommand, getD_eq_get _ i hi]
    apply String.ext
    simp [ruleSpec, ruleMatch, probability]
  have hout : installCommand cfg "OUTPUT" i = "iptables -t nat -A OUTPUT" ++
      (" -p tcp -d " ++ cfg.SourceIP ++ " --dport " ++ cfg.SourcePort ++
        " -m state --state NEW -m statistic --mode random --probability " ++
        fmtFloat (F64.div F64.one (float64 (cfg.DestinationConfig.IPAddresses.length - i))) ++
        " -j DNAT --to-destination " ++ cfg.DestinationConfig.IPAddresses.get ⟨i, hi⟩ ++
        ":" ++ cfg.DestinationConfig.Port) := by
    rw [installCommand, getD_eq_get _ i hi]
    apply String.ext
    simp [ruleSpec, ruleMatch, probability]
  have h1 := fullInstall_prerouting cfg i hi
  have h2 := fullInstall_output cfg i hi
  rw [hpre] at h1
  rw [hout] at h2
  refine ⟨_, rfl, h1, h2, fun sh c => ⟨fun h => ?_, fun h => ?_⟩⟩
  · have := issued_getElem_of_fullInstall sh cfg _ c h
    rw [h1] at this
    exact (Option.some.inj this).symm
  · have := issued_getElem_of_fullInstall sh cfg _ c h
    rw [h2] at this
    exact (Option.some.inj this).symm

set_option maxRecDepth 100000 in
/-- The two commands for the first backend of `cfgTwo`. -/
theorem add_rules_differ_only_in_chain_witness :
    0 < cfgTwo.DestinationConfig.IPAddresses.length ∧
    ∃ tail : String,
      tail = " -p tcp -d 10.0.0.1 --dport 80 -m state --state NEW -m statistic --mode random --probability 0.500000 -j DNAT --to-destination 10.0.0.2:8080" ∧
      (fullInstall cfgTwo)[2 * 0]? = some ("iptables -t nat -A PREROUTING" ++ tail) ∧
      (fullInstall cfgTwo)[2 * 0 + 1]? = some ("iptables -t nat -A OUTPUT" ++ tail) :=
  have h := add_rules_differ_only_in_chain cfgTwo 0 (by decide)
  ⟨by decide, h.elim fun tail ht => ⟨tail, ht.1.trans (by decide), ht.2.1, ht.2.2.1⟩⟩

/-- Claim C9: `DeletePreroutingFilters` fails as the install does. With `N` destinations and
`1 ≤ k ≤ 2 * N`, if the shell first fails on the `k`-th invocation, with error `e`, exactly `k`
commands are run, they are the first `k` of the full delete sequence, and `e` is returned; if
no invocation fails, the `2 * N` commands of the full sequence are run and `nil` is
returned. -/
theorem DeletePreroutingFilters_failure_semantics (sh : Shell) (cfg : LBConfiguration) :
    (fullUninstall cfg).length = 2 * cfg.DestinationConfig.IPAddresses.length ∧
    (∀ k e, 1 ≤ k → k ≤ 2 * cfg.DestinationConfig.IPAddresses.length →
      FailsFirstAt sh (fullUninstall cfg) k e →
        (DeletePreroutingFilters sh cfg World.start).1.issued.length = k ∧
        (DeletePreroutingFilters sh cfg World.start).1.issued = (fullUninstall cfg).take k ∧
        (DeletePreroutingFilters sh cfg World.start).2 = some e) ∧
    (SucceedsOn sh (fullUninstall cfg) →
      (DeletePreroutingFilters sh cfg World.start).1.issued.length =
        2 * cfg.DestinationConfig.IPAddresses.length ∧
      (DeletePreroutingFilters sh cfg World.start).1.issued = fullUninstall cfg ∧
      (DeletePreroutingFilters sh cfg World.start).2 = none) := by
  refine ⟨fullUninstall_length cfg, fun k e hk1 hk2 hfail => ?_, fun hok => ?_⟩
  · obtain ⟨h1, h2⟩ := delete_failure sh cfg k e hk1 hk2 hfail
    refine ⟨?_, h1, h2⟩
    rw [h1, List.length_take, fullUninstall_length]; omega
  · obtain ⟨h1, h2⟩ := delete_success sh cfg hok
    exact ⟨by rw [h1, fullUninstall_length], h1, h2⟩

/-- On `cfgTwo`, a shell failing its second invocation stops the uninstall after two
commands, and a shell that never fails lets it run all four. -/
theorem DeletePreroutingFilters_failure_semantics_witness :
    (FailsFirstAt (failAt 2) (fullUninstall cfgTwo) 2 "exit status 1" ∧
      (DeletePreroutingFilters (failAt 2) cfgTwo World.start).1.issued.length = 2 ∧
      (DeletePreroutingFilters (failAt 2) cfgTwo World.start).2 = some "exit status 1") ∧
    (SucceedsOn alwaysOk (fullUninstall cfgTwo) ∧
      (DeletePreroutingFilters alwaysOk cfgTwo World.start).1.issued.length = 4 ∧
      (DeletePreroutingFilters alwaysOk cfgTwo World.start).2 = none) :=
  have hf := (DeletePreroutingFilters_failure_semantics (failAt 2) cfgTwo).2.1 2
    "exit status 1" (by decide) (by decide) (by decide)
  have hs := (DeletePreroutingFilters_failure_semantics alwaysOk cfgTwo).2.2
    (fun _ _ => rfl)
  ⟨⟨by decide, hf.1, hf.2.2⟩, fun _ _ => rfl, hs.1, hs.2.2⟩

/-- Claim C10: `EnableIPForwarding` runs the `sysctl` command first. If that succeeds it runs
nothing else and returns `nil`. If it fails it runs exactly one more command, the write to
`/proc/sys/net/ipv4/ip_forward`, and returns what that invocation answers: the `sysctl` error
is dropped, and an error is returned exactly when both invocations fail. -/
theorem EnableIPForwarding_falls_back_once (sh : Shell) :
    (EnableIPForwarding sh World.start).1.issued.head? = some "sysctl net.ipv4.ip_forward=1" ∧
    (sh [] "sysctl net.ipv4.ip_forward=1" = none →
      (EnableIPForwarding sh World.start).1.issued = ["sysctl net.ipv4.ip_forward=1"] ∧
      (EnableIPForwarding sh World.start).2 = none) ∧
    (sh [] "sysctl net.ipv4.ip_forward=1" ≠ none →
      (EnableIPForwarding sh World.start).1.issued =
        ["sysctl net.ipv4.ip_forward=1", "echo '1' < /proc/sys/net/ipv4/ip_forward"] ∧
      (EnableIPForwarding sh World.start).2 =
        sh ["sysctl net.ipv4.ip_forward=1"] "echo '1' < /proc/sys/net/ipv4/ip_forward") ∧
    ((EnableIPForwarding sh World.start).2 ≠ none ↔
      sh [] "sysctl net.ipv4.ip_forward=1" ≠ none ∧
      sh ["sysctl net.ipv4.ip_forward=1"] "echo '1' < /proc/sys/net/ipv4/ip_forward" ≠ none) := by
  cases h : sh [] "sysctl net.ipv4.ip_forward=1" <;>
    simp [EnableIPForwarding, executeShellCommand, logMessage, World.start, h]

/-- With a shell that fails `sysctl` only, the fallback is run and `nil` is returned; with a
shell that fails everything, the error of the fallback is returned. -/
theorem EnableIPForwarding_falls_back_once_witness :
    (EnableIPForwarding (failAt 1) World.start).1.issued =
      ["sysctl net.ipv4.ip_forward=1", "echo '1' < /proc/sys/net/ipv4/ip_forward"] ∧
    (EnableIPForwarding (failAt 1) World.start).2 = none ∧
    (EnableIPForwarding alwaysFails World.start).2 ≠ none :=
  have h := (EnableIPForwarding_falls_back_once (failAt 1)).2.2.1 (by decide)
  ⟨h.1, h.2.trans (by decide),
    (EnableIPForwarding_falls_back_once alwaysFails).2.2.2.2 ⟨by decide, by decide⟩⟩

/-! ## Further properties -/

/-- With any shell, `AddPreroutingFilters` does exactly this: it runs the commands of the full
install in order, stops after the first one the shell fails, and returns that failure, or
`nil` when none fails. -/
theorem AddPreroutingFilters_runs_plan_until_failure (sh : Shell) (cfg : LBConfiguration) :
    ((AddPreroutingFilters sh cfg World.start).1.issued,
      (AddPreroutingFilters sh cfg World.start).2) = runSeq sh (fullInstall cfg) [] := by
  rw [fullInstall_eq]
  exact AddPreroutingFilters_run sh cfg World.start

/-- With any shell, `DeletePreroutingFilters` runs the commands of the full uninstall in
order, stops after the first one the shell fails, and returns that failure, or `nil` when
none fails. -/
theorem DeletePreroutingFilters_runs_plan_until_failure (sh : Shell) (cfg : LBConfiguration) :
    ((DeletePreroutingFilters sh cfg World.start).1.issued,
      (DeletePreroutingFilters sh cfg World.start).2) = runSeq sh (fullUninstall cfg) [] := by
  rw [fullUninstall_eq]
  exact DeletePreroutingFilters_run sh cfg World.start

end iptables
